import Mathlib

/-!
# pelican-WOL: network-interface selection and Wake-on-LAN packet construction

A shallow embedding of `src/srv/server.js` (class `NetworkConfig` and the function
`createMagicPacket`) together with the properties established about it.

Conventions of the embedding

* A JavaScript string is the list of its UTF-16 code units (`JSString`).
* A function that can `throw` returns `Except JSString _`, the error carrying the message.
* A 32-bit integer produced by the bitwise operators is kept as its two's-complement
  bit pattern, a natural number below `2 ^ 32`.
* Object fields that may be `null`/`undefined` are `Option`s.
* Runtime library functions (`String.prototype.split`, `Number`, `Buffer.from`, ...) are
  modelled by the definitions of the first section; each says what it stands for.
-/

namespace PelicanWOL

/-! ## Runtime library -/

/-- A JavaScript string, as the sequence of its UTF-16 code units. -/
abbrev JSString := List Nat

/-- The code units of a literal (all literals used here are in the Basic Multilingual Plane). -/
def js (s : String) : JSString := s.toList.map Char.toNat

/-- The result of a call that may throw: `.error msg` stands for `throw new Error(msg)`. -/
abbrev JSResult (α : Type) := Except JSString α

/-- The method `String.prototype.split(sep)` for a one-code-unit separator: the maximal runs between
occurrences of `sep`; the empty string gives one empty part. -/
def split (sep : Nat) : JSString → List JSString
  | [] => [[]]
  | c :: cs =>
    if c = sep then [] :: split sep cs
    else
      match split sep cs with
      | [] => [[c]]
      | p :: ps => (c :: p) :: ps

/-- The method `Array.prototype.join(sep)` on an array of strings. -/
def join (sep : JSString) : List JSString → JSString
  | [] => []
  | [p] => p
  | p :: q :: ps => p ++ sep ++ join sep (q :: ps)

/-- The method `String.prototype.startsWith(searchString)`. -/
def startsWith (s searchString : JSString) : Bool := searchString.isPrefixOf s

/-- ASCII decimal digit `0`..`9` (the class `\d` of a regular expression without flags). -/
def isDigit (c : Nat) : Bool := 48 ≤ c && c ≤ 57

/-- The natural number written by a string of ASCII digits, most significant first. -/
def decimalValue (s : JSString) : Nat := s.foldl (fun acc c => 10 * acc + (c - 48)) 0

/-- The values of `Number(string)` that the modelled fragment can produce. -/
inductive JSNumber where
  | NaN
  | Infinity
  | finite (n : Nat)
deriving DecidableEq, Repr

/-- Rounding of a natural number to the nearest IEEE-754 double (ties to even);
`none` is the overflow to `+Infinity`. -/
def roundToDouble (n : Nat) : Option Nat :=
  if n < 2 ^ 53 then some n
  else
    let e := Nat.log2 n - 52
    let q := n / 2 ^ e
    let r := n % 2 ^ e
    let half := 2 ^ (e - 1)
    let q1 := if half < r ∨ (r = half ∧ q % 2 = 1) then q + 1 else q
    if 2 ^ 1024 ≤ q1 * 2 ^ e then none else some (q1 * 2 ^ e)

/-- The library function `Number` applied to a string. Exact on the empty string (`0`) and
on strings of ASCII digits (their decimal value, rounded to a double). Every other string
is given `NaN`; JavaScript also reads surrounding white space, a sign, an exponent,
`Infinity` and `0x`/`0o`/`0b` literals, which interface tables do not contain: the
statements below that name a numeric value are made for digit strings only, and what is
stated for every string goes through `calculateBroadcastWith`, which leaves the reading
of a part open. -/
def Number (s : JSString) : JSNumber :=
  if s.all isDigit then
    match roundToDouble (decimalValue s) with
    | some n => .finite n
    | none => .Infinity
  else .NaN

/-- The abstract operation `ToInt32` the bitwise operators apply to an operand, the result
kept as a 32-bit pattern; `undefined` (here `none`), `NaN` and `Infinity` give `0`. -/
def toInt32 : Option JSNumber → Nat
  | some (.finite n) => n % 2 ^ 32
  | _ => 0

/-- Bitwise NOT `~x` on a 32-bit pattern. -/
def bitNot (x : Nat) : Nat := 2 ^ 32 - 1 - x % 2 ^ 32

/-- The decimal digits of a natural number as code units. -/
def natToString (n : Nat) : JSString := (Nat.toDigits 10 n).map Char.toNat

/-- The method `Number.prototype.toString()` of the 32-bit integer with the given bit pattern:
patterns from `2 ^ 31` on are the negative numbers. -/
def int32ToString (x : Nat) : JSString :=
  if x < 2 ^ 31 then natToString x else 45 :: natToString (2 ^ 32 - x)

/-! ## `NetworkConfig.calculateBroadcast` -/

/-- Lines 107-114. `ip.split('.').map(Number)`, the same for the mask, then
`ipParts.map((octet, i) => octet | (~maskParts[i] & 255))` and `join('.')`.
The function has no `throw` and none of its library calls throws on strings. -/
def calculateBroadcast (ip netmask : JSString) : JSString :=
  let ipParts := (split 46 ip).map Number
  let maskParts := (split 46 netmask).map Number
  let broadcast := ipParts.enum.map fun (i, octet) =>
    toInt32 (some octet) ||| (bitNot (toInt32 maskParts[i]?) &&& 255)
  join [46] (broadcast.map int32ToString)

/-! ## Regular expressions and module constants -/

/-- A regular expression matching exactly the given string. -/
def reLit (s : JSString) : RegularExpression Nat :=
  s.foldr (fun c r => RegularExpression.char c * r) 1

/-- A character class: any one of the listed code units. -/
def reClass (cs : List Nat) : RegularExpression Nat :=
  cs.foldr (fun c r => RegularExpression.char c + r) 0

/-- The pattern `r+`. -/
def rePlus (r : RegularExpression Nat) : RegularExpression Nat := r * r.star

/-- The pattern `r{n}`. -/
def reRepeat (r : RegularExpression Nat) : Nat → RegularExpression Nat
  | 0 => 1
  | n + 1 => r * reRepeat r n

/-- The class `\d`. -/
def reDigit : RegularExpression Nat := reClass (js "0123456789")

/-- The class `[a-f0-9]`. -/
def reHexLower : RegularExpression Nat := reClass (js "abcdef0123456789")

/-- The method `RegExp.prototype.test` for a pattern written `/^...$/` without flags: both anchors are
present in every pattern of the program, so the whole string has to match. -/
def test (pattern : RegularExpression Nat) (s : JSString) : Bool := pattern.rmatch s

/-- The environment variables read at lines 11-22; `none` is an unset variable. -/
structure ProcessEnv where
  autoDetectVar : Option JSString
  localInterfaceVar : Option JSString
  dockerInterfaceVar : Option JSString
  excludeInterfacesVar : Option JSString
  localNetworkPrefixVar : Option JSString
deriving DecidableEq, Repr

/-- The expression `v || null` on an environment variable: unset and empty both give `null`. -/
def orNull : Option JSString → Option JSString
  | some (c :: cs) => some (c :: cs)
  | _ => none

/-- Line 17: `process.env.AUTO_DETECT !== 'false'`. -/
def AUTO_DETECT (env : ProcessEnv) : Bool := env.autoDetectVar != some (js "false")

/-- Line 18: `process.env.LOCAL_INTERFACE || null`. -/
def LOCAL_INTERFACE (env : ProcessEnv) : Option JSString := orNull env.localInterfaceVar

/-- Line 19: `process.env.DOCKER_INTERFACE || null`. -/
def DOCKER_INTERFACE (env : ProcessEnv) : Option JSString := orNull env.dockerInterfaceVar

/-- Line 20: `(process.env.EXCLUDE_INTERFACES || 'lo').split(',')`. -/
def EXCLUDE_INTERFACES (env : ProcessEnv) : List JSString :=
  split 44 ((orNull env.excludeInterfacesVar).getD (js "lo"))

/-- Line 21: `process.env.LOCAL_NETWORK_PREFIX || null`. -/
def LOCAL_NETWORK_PREFIX (env : ProcessEnv) : Option JSString :=
  orNull env.localNetworkPrefixVar

/-! ## Data model -/

/-- One record of `validInterfaces` (lines 52-60). -/
structure InterfaceRecord where
  name : JSString
  address : JSString
  netmask : JSString
  broadcast : JSString
  mac : JSString
  isDocker : Bool
  isLocal : Bool
deriving DecidableEq, Repr

/-- One address entry of `os.networkInterfaces()`; `mac` is optional in the embedding
because the program guards it with `|| 'N/A'`. -/
structure AddressEntry where
  address : JSString
  netmask : JSString
  family : JSString
  mac : Option JSString
  internal : Bool
deriving DecidableEq, Repr

/-- The value of `Object.entries(os.networkInterfaces())`: the interface names with their
address entries, in enumeration order. -/
abbrev OSInterfaces := List (JSString × List AddressEntry)

/-- The mutable fields of the class `NetworkConfig` (lines 28-33). -/
structure NetworkConfig where
  localInterface : Option InterfaceRecord
  dockerInterface : Option InterfaceRecord
  allInterfaces : List InterfaceRecord
deriving DecidableEq, Repr

/-- The state the constructor builds. -/
def NetworkConfig.new : NetworkConfig := ⟨none, none, []⟩

/-! ## Classification -/

/-- Lines 71-75. -/
def dockerPatterns : List (RegularExpression Nat) :=
  [ reLit (js "docker") * rePlus reDigit,
    reLit (js "br-") * reRepeat reHexLower 12,
    reLit (js "veth") * rePlus reHexLower ]

/-- Lines 68-79: `dockerPatterns.some(pattern => pattern.test(name))`. -/
def isDockerInterface (name _ip : JSString) : Bool :=
  dockerPatterns.any fun pattern => test pattern name

/-- Lines 94-101. -/
def localPatterns : List (RegularExpression Nat) :=
  [ reLit (js "eth") * rePlus reDigit,
    reLit (js "ens") * rePlus reDigit,
    reLit (js "enp") * rePlus reDigit * reLit (js "s") * rePlus reDigit,
    reLit (js "eno") * rePlus reDigit,
    reLit (js "wlan") * rePlus reDigit,
    reLit (js "wlp") * rePlus reDigit * reLit (js "s") * rePlus reDigit ]

/-- Lines 82-104. The second test is `LOCAL_NETWORK_PREFIX && ip.startsWith(...)`: a string
is truthy when it is not empty. -/
def isLocalInterface (env : ProcessEnv) (name ip : JSString) : Bool :=
  if name = js "eth0" then true
  else if (match ( LOCAL_NETWORK_PREFIX env) with
      | some p => p != [] && startsWith ip p
      | none => false) then true
  else localPatterns.any fun pattern => test pattern name

/-! ## Enumeration -/

/-- Lines 40-62, one iteration of the loop over `Object.entries(interfaces)`. -/
def detectStep (env : ProcessEnv) (validInterfaces : List InterfaceRecord)
    (entry : JSString × List AddressEntry) : List InterfaceRecord :=
  let name := entry.1
  let addrs := entry.2
  if ( EXCLUDE_INTERFACES env).contains name then validInterfaces
  else
    match addrs.find? (fun addr => addr.family == js "IPv4" && !addr.internal) with
    | some ipv4 =>
      let broadcast := calculateBroadcast ipv4.address ipv4.netmask
      validInterfaces ++
        [{ name := name
           address := ipv4.address
           netmask := ipv4.netmask
           broadcast := broadcast
           mac := match ipv4.mac with
             | some (c :: cs) => c :: cs
             | _ => js "N/A"
           isDocker := isDockerInterface name ipv4.address
           isLocal := isLocalInterface env name ipv4.address }]
    | none => validInterfaces

/-- Lines 36-65; the argument is what `os.networkInterfaces()` returns at the call. -/
def detectAllInterfaces (env : ProcessEnv) (interfaces : OSInterfaces) :
    List InterfaceRecord :=
  interfaces.foldl (detectStep env) []

/-! ## Persistence -/

/-- The `{name, address}` object saved for a slot (lines 221-228). -/
structure SavedSlot where
  name : JSString
  address : JSString
deriving DecidableEq, Repr

/-- One element of the saved `all` array (lines 229-234). -/
structure SavedInterface where
  name : JSString
  address : JSString
  isDocker : Bool
  isLocal : Bool
deriving DecidableEq, Repr

/-- The object `config` of `saveConfig` and of `loadConfig`. -/
structure Snapshot where
  timestamp : JSString
  localSlot : Option SavedSlot
  dockerSlot : Option SavedSlot
  all : List SavedInterface
deriving DecidableEq, Repr

/-- What `loadConfig` finds at `configPath`: no file, a file on which `JSON.parse` (or a
property read on its result) throws, or a snapshot of the saved shape. -/
inductive ConfigFile where
  | absent
  | unparsable
  | parsed (config : Snapshot)
deriving DecidableEq, Repr

/-- Lines 219-235: the object handed to `fs.writeFileSync`; `timestamp` is the value of
`new Date().toISOString()` at the call. -/
def saveConfig (self : NetworkConfig) (timestamp : JSString) : Snapshot :=
  { timestamp := timestamp
    localSlot := self.localInterface.map fun i => ⟨i.name, i.address⟩
    dockerSlot := self.dockerInterface.map fun i => ⟨i.name, i.address⟩
    all := self.allInterfaces.map fun i => ⟨i.name, i.address, i.isDocker, i.isLocal⟩ }

/-- Lines 237-242: the file after the write, which is kept as it was when
`writeFileSync` throws (`writable = false`); the error is caught and logged. -/
def writeConfig (writable : Bool) (file : ConfigFile) (config : Snapshot) : ConfigFile :=
  if writable then .parsed config else file

/-! ## Selection -/

/-- The message of the error thrown at line 172. -/
def notFoundMessage (name : JSString) : JSString :=
  js "Interface " ++ name ++ js " non trouvée"

/-- Lines 169-175. -/
def loadInterfaceByName (self : NetworkConfig) (name : JSString) : JSResult InterfaceRecord :=
  match self.allInterfaces.find? (fun i => i.name == name) with
  | some iface => .ok iface
  | none => .error (notFoundMessage name)

/-- Lines 128-141, the value assigned to `this.localInterface` when it is unset. An
object is truthy, so `a || b` is `b` exactly when `a` is `undefined`. -/
def selectLocal (allInterfaces : List InterfaceRecord) : Option InterfaceRecord :=
  let localCandidates := allInterfaces.filter fun i => i.isLocal && !i.isDocker
  if localCandidates.length > 0 then
    (localCandidates.find? fun i => startsWith i.name (js "eth")) <|>
    (localCandidates.find? fun i => startsWith i.name (js "ens")) <|>
    localCandidates[0]?
  else none

/-- Lines 144-156, the value assigned to `this.dockerInterface` when it is unset. -/
def selectDocker (allInterfaces : List InterfaceRecord) : Option InterfaceRecord :=
  let dockerCandidates := allInterfaces.filter fun i => i.isDocker
  if dockerCandidates.length > 0 then
    (dockerCandidates.find? fun i => i.name == js "docker0") <|>
    dockerCandidates[0]?
  else none

/-- The object returned at lines 161-165. -/
structure DetectResult where
  localInterface : Option InterfaceRecord
  dockerInterface : Option InterfaceRecord
  all : List InterfaceRecord
deriving DecidableEq, Repr

/-- Lines 120-166 after the enumeration of line 120 produced `enumerated`: the new state
and the returned object. A slot is assigned only under `if (!this.localInterface)` /
`if (!this.dockerInterface)`. -/
def autoDetectWith (enumerated : List InterfaceRecord) (self : NetworkConfig) :
    NetworkConfig × DetectResult :=
  let s0 := { self with allInterfaces := enumerated }
  let s1 :=
    match s0.localInterface with
    | none => { s0 with localInterface := selectLocal s0.allInterfaces }
    | some _ => s0
  let s2 :=
    match s1.dockerInterface with
    | none => { s1 with dockerInterface := selectDocker s1.allInterfaces }
    | some _ => s1
  (s2, ⟨s2.localInterface, s2.dockerInterface, s2.allInterfaces⟩)

/-- Lines 117-166: `autoDetect()`. Besides the new state and the returned object it gives
the snapshot that `saveConfig` (line 159) writes. -/
def autoDetect (env : ProcessEnv) (interfaces : OSInterfaces) (timestamp : JSString)
    (self : NetworkConfig) : NetworkConfig × DetectResult × Snapshot :=
  let r := autoDetectWith (detectAllInterfaces env interfaces) self
  (r.1, r.2, saveConfig r.1 timestamp)

/-- Lines 259-263 of `loadConfig`, reached when the statement before did not throw. -/
def loadConfigDocker (config : Snapshot) (self : NetworkConfig) : NetworkConfig × Bool :=
  match config.dockerSlot, self.dockerInterface with
  | some saved, none =>
    match loadInterfaceByName self saved.name with
    | .ok iface => ({ self with dockerInterface := some iface }, true)
    | .error _ => (self, false)
  | _, _ => (self, true)

/-- Lines 246-268: the state after `loadConfig()` and its return value. The two
resolutions stand in one `try` block, so an error thrown by the first one is caught at
line 264 and the second one is not run. -/
def loadConfig (file : ConfigFile) (self : NetworkConfig) : NetworkConfig × Bool :=
  match file with
  | .absent => (self, false)
  | .unparsable => (self, false)
  | .parsed config =>
    match config.localSlot, self.localInterface with
    | some saved, none =>
      match loadInterfaceByName self saved.name with
      | .ok iface => loadConfigDocker config { self with localInterface := some iface }
      | .error _ => (self, false)
    | _, _ => loadConfigDocker config self

/-- Lines 185-192 and 194-201: one manual slot, its `try`/`catch` around the lookup. -/
def manualSlot (self : NetworkConfig) (name : Option JSString)
    (slot : Option InterfaceRecord) : Option InterfaceRecord :=
  match name with
  | some n =>
    match loadInterfaceByName self n with
    | .ok iface => some iface
    | .error _ => slot
  | none => slot

/-- The inputs `initialize()` reads from outside the program: the interface table at its
two enumerations, the clock, and the configuration file with its writability. -/
structure World where
  interfacesManual : OSInterfaces
  interfacesAuto : OSInterfaces
  timestamp : JSString
  file : ConfigFile
  writable : Bool

/-- Lines 178-215, the method `initialize()` (a reserved word here, hence the longer
name): the state it leaves, from the state `self` it is called on. -/
def initializeNetworkConfig (env : ProcessEnv) (w : World) (self : NetworkConfig) : NetworkConfig :=
  let s1 :=
    if ( LOCAL_INTERFACE env).isSome || ( DOCKER_INTERFACE env).isSome then
      let a := { self with allInterfaces := detectAllInterfaces env w.interfacesManual }
      let b := { a with localInterface := manualSlot a ( LOCAL_INTERFACE env) a.localInterface }
      { b with dockerInterface := manualSlot b ( DOCKER_INTERFACE env) b.dockerInterface }
    else self
  let detected :=
    if AUTO_DETECT env && (s1.localInterface.isNone || s1.dockerInterface.isNone) then
      let r := autoDetect env w.interfacesAuto w.timestamp s1
      (r.1, writeConfig w.writable w.file r.2.2)
    else (s1, w.file)
  let s2 := detected.1
  if s2.localInterface.isNone || s2.dockerInterface.isNone then
    (loadConfig detected.2 s2).1
  else s2

/-- Lines 389-403, the effect of `POST /interfaces/detect` on the configuration and the
`result` of its response. -/
def postInterfacesDetect (env : ProcessEnv) (interfaces : OSInterfaces)
    (timestamp : JSString) (networkConfig : NetworkConfig) : NetworkConfig × DetectResult :=
  let r := autoDetect env interfaces timestamp networkConfig
  (r.1, r.2.1)

/-! ## `createMagicPacket` -/

/-- The call `macAddress.replace(/[:-]/g, '')`. -/
def removeSeparators (s : JSString) : JSString := s.filter fun c => !(c == 58 || c == 45)

/-- The method `String.prototype.toLowerCase()` on strings of ASCII code units, where it
is exact: `A`..`Z` go to `a`..`z`. Other code units are kept here, whereas the Unicode
operation may change them and the length of the string; it sends no character outside
`A`..`F` to a hexadecimal digit. Statements that depend on it are made for ASCII input. -/
def toLowerCase (s : JSString) : JSString :=
  s.map fun c => if 65 ≤ c ∧ c ≤ 90 then c + 32 else c

/-- The value of a hexadecimal digit, as the decoder of `Buffer.from(_, 'hex')` reads it.
Exact for code units below 256; for a code unit from 256 on the decoder of Node looks at
its low byte only, a case left out here (no statement below is made for such input). -/
def unhex (c : Nat) : Option Nat :=
  if 48 ≤ c ∧ c ≤ 57 then some (c - 48)
  else if 97 ≤ c ∧ c ≤ 102 then some (c - 87)
  else if 65 ≤ c ∧ c ≤ 70 then some (c - 55)
  else none

/-- The call `Buffer.from(s, 'hex')`: one byte for each pair of hexadecimal digits, stopping (without
an error) at the first pair that is not one; a trailing single character is dropped. -/
def bufferFromHex : JSString → List Nat
  | a :: b :: rest =>
    match unhex a, unhex b with
    | some x, some y => (x * 16 + y) :: bufferFromHex rest
    | _, _ => []
  | _ => []

/-- The call `Buffer.alloc(n)`: `n` zero bytes. -/
def bufferAlloc (n : Nat) : List Nat := List.replicate n 0

/-- The call `source.copy(target, targetStart)`: as many bytes of `source` as fit into `target`
from `targetStart` on. -/
def bufferCopy (source target : List Nat) (targetStart : Nat) : List Nat :=
  let n := min source.length (target.length - targetStart)
  target.take targetStart ++ source.take n ++ target.drop (targetStart + n)

/-- The message of the error thrown at line 286. -/
def invalidMacMessage : JSString := js "Adresse MAC invalide"

/-- Lines 282-301. -/
def createMagicPacket (macAddress : JSString) : JSResult (List Nat) :=
  let mac := toLowerCase (removeSeparators macAddress)
  if mac.length ≠ 12 then .error invalidMacMessage
  else
    let macBuffer := bufferFromHex mac
    let magicPacket := bufferAlloc 102
    let magicPacket := (List.range 6).foldl (fun pkt i => pkt.set i 0xFF) magicPacket
    let magicPacket :=
      (List.range 16).foldl (fun pkt i => bufferCopy macBuffer pkt (6 + i * 6)) magicPacket
    .ok magicPacket

/-! ## Dotted quads (specification side) -/

/-- A decimal octet: a non-empty string of ASCII digits whose value is at most 255. -/
def isOctetString (p : JSString) : Bool :=
  p != [] && p.all isDigit && decide (decimalValue p ≤ 255)

/-- A dotted quad: exactly four dot-separated decimal octets. -/
def isDottedQuad (s : JSString) : Bool :=
  (split 46 s).length == 4 && (split 46 s).all isOctetString

/-- The numeric values of the dot-separated parts of a string. -/
def octets (s : JSString) : List Nat := (split 46 s).map decimalValue

/-- The octet the program computes from an address octet and a mask octet. -/
def broadcastOctet (a m : Nat) : Nat := a ||| (bitNot m &&& 255)

/-- Lines 107-114 with the reading of a part left open. `readInt32 part` stands for the
32-bit integer (as a bit pattern) that the operators `|` and `~` obtain from
`Number(part)`, whatever `Number` reads from that string; mapping it over the parts takes
the place of `.map(Number)`. A netmask part that does not exist is `undefined`, which the
operators read as 0. Every other step is the one of `calculateBroadcast`. -/
def calculateBroadcastWith (readInt32 : JSString → Fin (2 ^ 32)) (ip netmask : JSString) :
    JSString :=
  let ipParts := (split 46 ip).map readInt32
  let maskParts := (split 46 netmask).map readInt32
  let broadcast := ipParts.enum.map fun (i, octet) =>
    octet.val ||| (bitNot (match maskParts[i]? with
      | some m => m.val
      | none => 0) &&& 255)
  join [46] (broadcast.map int32ToString)

/-- The 32-bit integer that `calculateBroadcastWith` computes for the part `part` of the
address at index `i`: `octet | (~mask & 255)`. -/
def broadcastInt32 (readInt32 : JSString → Fin (2 ^ 32)) (netmask : JSString)
    (i : Nat) (part : JSString) : Nat :=
  (readInt32 part).val ||| (bitNot (match (split 46 netmask)[i]? with
    | some m => (readInt32 m).val
    | none => 0) &&& 255)

/-- The reading of a part by the modelled `Number` followed by `ToInt32`; it is the
reading of the program on strings of ASCII digits. -/
def readDecimal (part : JSString) : Fin (2 ^ 32) :=
  ⟨toInt32 (some (Number part)) % 2 ^ 32, Nat.mod_lt _ (by decide)⟩

/-! ## MAC addresses (specification side) -/

/-- A hexadecimal character: `0`..`9`, `a`..`f` or `A`..`F`. -/
def isHexDigit (c : Nat) : Bool := (js "0123456789abcdefABCDEF").contains c

/-- The value of a hexadecimal character: its position in `0123456789abcdef`, or in
`0123456789ABCDEF` for a capital. -/
def hexDigitValue (c : Nat) : Nat :=
  min ((js "0123456789abcdef").indexOf c) ((js "0123456789ABCDEF").indexOf c)

/-- The six bytes denoted by twelve hexadecimal characters, two characters a byte. -/
def macBytes (mac : JSString) : List Nat :=
  (List.range 6).map fun j =>
    16 * hexDigitValue (mac.getD (2 * j) 0) + hexDigitValue (mac.getD (2 * j + 1) 0)

/-! ## Selection rules (specification side) -/

/-- The local pool of the specification: records with `isLocal && !isDocker`. -/
def inLocalPool (i : InterfaceRecord) : Bool := i.isLocal && !i.isDocker

/-- The local choice as the specification words it: the first record of the pool whose
name starts with `eth`, else the first whose name starts with `ens`, else the first
record of the pool, else nothing. -/
def specLocalChoice (all : List InterfaceRecord) : Option InterfaceRecord :=
  match all.find? (fun i => inLocalPool i && (js "eth").isPrefixOf i.name) with
  | some r => some r
  | none =>
    match all.find? (fun i => inLocalPool i && (js "ens").isPrefixOf i.name) with
    | some r => some r
    | none => all.find? inLocalPool

/-- The docker choice as the specification words it: the record named exactly `docker0`
among the `isDocker` records, else the first `isDocker` record, else nothing. -/
def specDockerChoice (all : List InterfaceRecord) : Option InterfaceRecord :=
  match all.find? (fun i => i.isDocker && i.name == js "docker0") with
  | some r => some r
  | none => all.find? (fun i => i.isDocker)

/-! ## Enumeration (specification side) -/

/-- An address entry with family IPv4 and `internal = false`. -/
def isExternalIPv4 (a : AddressEntry) : Bool := a.family == js "IPv4" && !a.internal

/-- An entry of the interface table the enumeration keeps: its name is not in the
exclusion list and it has at least one address entry that is IPv4 and not internal. -/
def qualifies (excluded : List JSString) (entry : JSString × List AddressEntry) : Bool :=
  !excluded.contains entry.1 && entry.2.any isExternalIPv4

/-- What the specification asks of the record made for a table entry. -/
def RecordFor (env : ProcessEnv) (r : InterfaceRecord)
    (entry : JSString × List AddressEntry) : Prop :=
  ∃ ipv4, (entry.2.filter isExternalIPv4).head? = some ipv4 ∧
    r.name = entry.1 ∧ r.address = ipv4.address ∧ r.netmask = ipv4.netmask ∧
    r.broadcast = calculateBroadcast ipv4.address ipv4.netmask ∧
    (∀ m, ipv4.mac = some m → m ≠ [] → r.mac = m) ∧
    (ipv4.mac = none ∨ ipv4.mac = some [] → r.mac = js "N/A") ∧
    r.isDocker = isDockerInterface entry.1 ipv4.address ∧
    r.isLocal = isLocalInterface env entry.1 ipv4.address

/-! ## Interface names (specification side) -/

/-- A character of `[a-f0-9]`. -/
def isHexLower (c : Nat) : Bool := isDigit c || (97 ≤ c && c ≤ 102)

/-- One or more ASCII digits. -/
def IsDigits (s : JSString) : Prop := s ≠ [] ∧ ∀ c ∈ s, isDigit c = true

/-- Characters of `[a-f0-9]` only. -/
def IsHexLower (s : JSString) : Prop := ∀ c ∈ s, isHexLower c = true

/-! ## Concrete scenarios -/

/-- An address entry with the given address and netmask, IPv4 and not internal. -/
def ipv4Entry (address netmask : String) : AddressEntry :=
  ⟨js address, js netmask, js "IPv4", some (js "02:42:ac:11:00:02"), false⟩

/-- The environment with no variable set. -/
def emptyEnv : ProcessEnv := ⟨none, none, none, none, none⟩

/-- The interface table of the priority example: `ens3`, `eth1`, `eth0`, in this order. -/
def priorityTable : OSInterfaces :=
  [(js "ens3", [ipv4Entry "10.0.3.5" "255.255.255.0"]),
   (js "eth1", [ipv4Entry "10.0.1.5" "255.255.255.0"]),
   (js "eth0", [ipv4Entry "10.0.0.5" "255.255.255.0"])]

/-- The record the enumeration builds for an entry of `priorityTable`. -/
def priorityRecord (name address broadcast : String) : InterfaceRecord :=
  ⟨js name, js address, js "255.255.255.0", js broadcast, js "02:42:ac:11:00:02", false, true⟩

/-- An interface table with a loopback, two bridges, a wireless and two wired interfaces. -/
def mixedTable : OSInterfaces :=
  [(js "lo", [⟨js "127.0.0.1", js "255.0.0.0", js "IPv4", some (js "00:00:00:00:00:00"), true⟩]),
   (js "br-0123456789ab", [ipv4Entry "172.18.0.1" "255.255.0.0"]),
   (js "wlan0", [ipv4Entry "192.168.1.7" "255.255.255.0"]),
   (js "docker0", [ipv4Entry "172.17.0.1" "255.255.0.0"]),
   (js "ens3", [ipv4Entry "10.0.3.5" "255.255.255.0"]),
   (js "eth0", [ipv4Entry "192.168.1.42" "255.255.255.0"])]

/-- A record that no enumeration of `mixedTable` contains. -/
def staleRecord : InterfaceRecord :=
  ⟨js "tun0", js "10.8.0.2", js "255.255.255.0", js "10.8.0.255", js "N/A", false, false⟩

/-- The record of a bridge `br0`, a name that no pattern of the classifier matches. -/
def bridgeRecord : InterfaceRecord :=
  ⟨js "br0", js "172.20.0.1", js "255.255.0.0", js "172.20.255.255",
   js "02:42:ac:11:00:02", false, false⟩

/-- A saved snapshot naming `tun0` as local and `br0` as docker interface. -/
def savedSnapshot : Snapshot :=
  ⟨js "2024-01-01T00:00:00.000Z", some ⟨js "tun0", js "10.8.0.2"⟩,
   some ⟨js "br0", js "172.20.0.1"⟩, []⟩

/-- A start-up in which auto-detection is off and `LOCAL_INTERFACE=tun0` is configured. -/
def savedEnv : ProcessEnv := ⟨some (js "false"), some (js "tun0"), none, none, none⟩

/-- The same start-up with both names given by hand (`DOCKER_INTERFACE=br0`). -/
def manualEnv : ProcessEnv :=
  ⟨some (js "false"), some (js "tun0"), some (js "br0"), none, none⟩

/-- The machine at that start-up: `br0` exists, `tun0` does not, the snapshot is on disk. -/
def savedWorld : World :=
  { interfacesManual := [(js "br0", [ipv4Entry "172.20.0.1" "255.255.0.0"])]
    interfacesAuto := [(js "br0", [ipv4Entry "172.20.0.1" "255.255.0.0"])]
    timestamp := js "2024-01-02T00:00:00.000Z"
    file := .parsed savedSnapshot
    writable := true }

/-! # Theorems -/

set_option maxRecDepth 100000

/-! ## Lemmas on the runtime library -/

theorem split_of_not_mem (sep : Nat) (p : JSString) (h : sep ∉ p) : split sep p = [p] := by
  induction p with
  | nil => rfl
  | cons c cs ih =>
    have hc : c ≠ sep := fun e => h (by simp [e])
    have hcs : sep ∉ cs := fun e => h (by simp [e])
    simp [split, hc, ih hcs]

theorem split_append_sep (sep : Nat) (p rest : JSString) (h : sep ∉ p) :
    split sep (p ++ sep :: rest) = p :: split sep rest := by
  induction p with
  | nil => simp [split]
  | cons c cs ih =>
    have hc : c ≠ sep := fun e => h (by simp [e])
    have hcs : sep ∉ cs := fun e => h (by simp [e])
    simp [split, hc, ih hcs]

theorem split_join (sep : Nat) (p : JSString) (ps : List JSString)
    (h : ∀ q ∈ p :: ps, sep ∉ q) : split sep (join [sep] (p :: ps)) = p :: ps := by
  induction ps generalizing p with
  | nil => simpa [join] using split_of_not_mem sep p (h p (by simp))
  | cons q qs ih =>
    have hp : sep ∉ p := h p (by simp)
    have hq : ∀ r ∈ q :: qs, sep ∉ r := fun r hr => h r (by simp [hr])
    simp only [join, List.append_assoc, List.singleton_append]
    rw [split_append_sep sep p _ hp, ih q hq]

theorem split_length_pos (sep : Nat) (s : JSString) : 0 < (split sep s).length := by
  induction s with
  | nil => simp [split]
  | cons c cs ih =>
    unfold split
    split
    · simp
    · split <;> simp

theorem digitChar_isDigit : ∀ k < 10, isDigit (Nat.digitChar k).toNat = true := by decide

theorem toDigitsCore_isDigit (fuel : Nat) : ∀ (n : Nat) (ds : List Char),
    (∀ c ∈ ds, isDigit c.toNat = true) →
    ∀ c ∈ Nat.toDigitsCore 10 fuel n ds, isDigit c.toNat = true := by
  induction fuel with
  | zero => intro n ds h; simpa [Nat.toDigitsCore] using h
  | succ f ih =>
    intro n ds h
    have hd : isDigit (Nat.digitChar (n % 10)).toNat = true :=
      digitChar_isDigit _ (Nat.mod_lt _ (by decide))
    have hcons : ∀ c ∈ Nat.digitChar (n % 10) :: ds, isDigit c.toNat = true := by
      intro c hc
      rcases List.mem_cons.1 hc with rfl | hc
      · exact hd
      · exact h c hc
    unfold Nat.toDigitsCore
    simp only
    split
    · exact hcons
    · exact ih _ _ hcons

theorem natToString_isDigit (n : Nat) : ∀ c ∈ natToString n, isDigit c = true := by
  intro c hc
  simp only [natToString, List.mem_map] at hc
  obtain ⟨d, hd, rfl⟩ := hc
  exact toDigitsCore_isDigit _ _ _ (by simp) d hd

theorem dot_not_mem_int32ToString (x : Nat) : 46 ∉ int32ToString x := by
  intro h
  unfold int32ToString at h
  split at h
  · exact absurd (natToString_isDigit _ _ h) (by decide)
  · rcases List.mem_cons.1 h with h | h
    · exact absurd h (by decide)
    · exact absurd (natToString_isDigit _ _ h) (by decide)

theorem isDottedQuad_parts {s : JSString} (h : isDottedQuad s = true) :
    ∃ p0 p1 p2 p3, split 46 s = [p0, p1, p2, p3] ∧ isOctetString p0 = true ∧
      isOctetString p1 = true ∧ isOctetString p2 = true ∧ isOctetString p3 = true := by
  unfold isDottedQuad at h
  simp only [Bool.and_eq_true, beq_iff_eq, List.all_eq_true] at h
  obtain ⟨hlen, hall⟩ := h
  match hs : split 46 s, hlen, hall with
  | [p0, p1, p2, p3], _, hall =>
    exact ⟨p0, p1, p2, p3, rfl, hall p0 (by simp), hall p1 (by simp), hall p2 (by simp),
      hall p3 (by simp)⟩

theorem isOctetString_le {p : JSString} (h : isOctetString p = true) : decimalValue p ≤ 255 := by
  unfold isOctetString at h
  simp only [Bool.and_eq_true, decide_eq_true_eq] at h
  exact h.2

theorem roundToDouble_small {n : Nat} (h : n < 2 ^ 53) : roundToDouble n = some n := by
  unfold roundToDouble
  rw [if_pos h]

theorem Number_octet {p : JSString} (h : isOctetString p = true) :
    Number p = .finite (decimalValue p) := by
  have hle := isOctetString_le h
  unfold isOctetString at h
  simp only [Bool.and_eq_true, decide_eq_true_eq] at h
  have hlt : decimalValue p < 2 ^ 53 := by omega
  unfold Number
  rw [if_pos h.1.2, roundToDouble_small hlt]

theorem toInt32_octet {p : JSString} (h : isOctetString p = true) :
    toInt32 (some (Number p)) = decimalValue p := by
  have hle := isOctetString_le h
  rw [Number_octet h]
  simp only [toInt32]
  omega

theorem bitNot_land_le (m : Nat) : bitNot m &&& 255 ≤ 255 := Nat.and_le_right

theorem broadcastOctet_le {a : Nat} (m : Nat) (ha : a ≤ 255) : broadcastOctet a m ≤ 255 := by
  have h1 : a < 2 ^ 8 := by omega
  have h2 : bitNot m &&& 255 < 2 ^ 8 := by have := bitNot_land_le m; omega
  have := Nat.or_lt_two_pow h1 h2
  unfold broadcastOctet
  omega

theorem int32ToString_small {x : Nat} (h : x ≤ 255) : int32ToString x = natToString x := by
  unfold int32ToString
  rw [if_pos (by omega)]

theorem natToString_octet : ∀ x < 256,
    isOctetString (natToString x) = true ∧ decimalValue (natToString x) = x := by
  decide

theorem mask_land_zero : ∀ m < 256, (bitNot m &&& 255) &&& m = 0 := by decide

theorem calculateBroadcast_parts {ip netmask : JSString} {p0 p1 p2 p3 q0 q1 q2 q3 : JSString}
    (hip : split 46 ip = [p0, p1, p2, p3]) (hmask : split 46 netmask = [q0, q1, q2, q3])
    (hp0 : isOctetString p0 = true) (hp1 : isOctetString p1 = true)
    (hp2 : isOctetString p2 = true) (hp3 : isOctetString p3 = true)
    (hq0 : isOctetString q0 = true) (hq1 : isOctetString q1 = true)
    (hq2 : isOctetString q2 = true) (hq3 : isOctetString q3 = true) :
    calculateBroadcast ip netmask =
      join [46]
        [natToString (broadcastOctet (decimalValue p0) (decimalValue q0)),
         natToString (broadcastOctet (decimalValue p1) (decimalValue q1)),
         natToString (broadcastOctet (decimalValue p2) (decimalValue q2)),
         natToString (broadcastOctet (decimalValue p3) (decimalValue q3))] := by
  have e0 := int32ToString_small (broadcastOctet_le (decimalValue q0) (isOctetString_le hp0))
  have e1 := int32ToString_small (broadcastOctet_le (decimalValue q1) (isOctetString_le hp1))
  have e2 := int32ToString_small (broadcastOctet_le (decimalValue q2) (isOctetString_le hp2))
  have e3 := int32ToString_small (broadcastOctet_le (decimalValue q3) (isOctetString_le hp3))
  unfold broadcastOctet at e0 e1 e2 e3
  simp only [calculateBroadcast, hip, hmask, List.map, List.enum, List.enumFrom,
    List.getElem?_cons_zero, List.getElem?_cons_succ, toInt32_octet hp0, toInt32_octet hp1,
    toInt32_octet hp2, toInt32_octet hp3, toInt32_octet hq0, toInt32_octet hq1,
    toInt32_octet hq2, toInt32_octet hq3, e0, e1, e2, e3, broadcastOctet]

theorem broadcastOctet_land {a m : Nat} (hm : m < 256) :
    broadcastOctet a m &&& m = a &&& m := by
  unfold broadcastOctet
  rw [Nat.and_comm, Nat.and_or_distrib_left, Nat.and_comm m (bitNot m &&& 255),
    mask_land_zero m hm, Nat.and_comm]
  simp

theorem broadcastOctet_lor (a m : Nat) :
    broadcastOctet a m ||| (bitNot m &&& 255) = broadcastOctet a m := by
  unfold broadcastOctet
  rw [Nat.or_assoc, Nat.or_self]

theorem broadcastOctet_idem (a m : Nat) :
    broadcastOctet (broadcastOctet a m) m = broadcastOctet a m := broadcastOctet_lor a m

theorem dot_not_mem_natToString (n : Nat) : 46 ∉ natToString n := fun h =>
  absurd (natToString_isDigit _ _ h) (by decide)

theorem split_join_quad (b0 b1 b2 b3 : Nat) :
    split 46 (join [46] [natToString b0, natToString b1, natToString b2, natToString b3]) =
      [natToString b0, natToString b1, natToString b2, natToString b3] := by
  apply split_join
  intro q hq
  simp only [List.mem_cons, List.mem_singleton, List.not_mem_nil, or_false] at hq
  rcases hq with rfl | rfl | rfl | rfl <;> exact dot_not_mem_natToString _

/-- C3. For an address and a netmask that are dotted quads of four decimal octets in
`[0,255]`, `calculateBroadcast` returns the dotted quad whose i-th octet is
`address_i | (~netmask_i & 255)`; octet-wise the result AND the netmask equals the address
AND the netmask, the result OR the inverted netmask is the result, every octet is at most
255, and computing the broadcast of the result again gives the same string. -/
theorem calculateBroadcast_dotted_quad (ip netmask : JSString)
    (hip : isDottedQuad ip = true) (hmask : isDottedQuad netmask = true) :
    calculateBroadcast ip netmask =
      join [46] ((List.zipWith (fun a m => a ||| (bitNot m &&& 255))
        (octets ip) (octets netmask)).map natToString) ∧
    isDottedQuad (calculateBroadcast ip netmask) = true ∧
    octets (calculateBroadcast ip netmask) =
      List.zipWith (fun a m => a ||| (bitNot m &&& 255)) (octets ip) (octets netmask) ∧
    List.zipWith (fun b m => b &&& m) (octets (calculateBroadcast ip netmask)) (octets netmask) =
      List.zipWith (fun a m => a &&& m) (octets ip) (octets netmask) ∧
    List.zipWith (fun b m => b ||| (bitNot m &&& 255))
      (octets (calculateBroadcast ip netmask)) (octets netmask) =
      octets (calculateBroadcast ip netmask) ∧
    (∀ b ∈ octets (calculateBroadcast ip netmask), b ≤ 255) ∧
    calculateBroadcast (calculateBroadcast ip netmask) netmask =
      calculateBroadcast ip netmask := by
  obtain ⟨p0, p1, p2, p3, hp, hp0, hp1, hp2, hp3⟩ := isDottedQuad_parts hip
  obtain ⟨q0, q1, q2, q3, hq, hq0, hq1, hq2, hq3⟩ := isDottedQuad_parts hmask
  have hres := calculateBroadcast_parts hp hq hp0 hp1 hp2 hp3 hq0 hq1 hq2 hq3
  have l0 := broadcastOctet_le (decimalValue q0) (isOctetString_le hp0)
  have l1 := broadcastOctet_le (decimalValue q1) (isOctetString_le hp1)
  have l2 := broadcastOctet_le (decimalValue q2) (isOctetString_le hp2)
  have l3 := broadcastOctet_le (decimalValue q3) (isOctetString_le hp3)
  have m0 := isOctetString_le hq0
  have m1 := isOctetString_le hq1
  have m2 := isOctetString_le hq2
  have m3 := isOctetString_le hq3
  have n0 := natToString_octet _ (Nat.lt_succ_of_le l0)
  have n1 := natToString_octet _ (Nat.lt_succ_of_le l1)
  have n2 := natToString_octet _ (Nat.lt_succ_of_le l2)
  have n3 := natToString_octet _ (Nat.lt_succ_of_le l3)
  have hsplit : split 46 (calculateBroadcast ip netmask) = _ :=
    hres ▸ split_join_quad _ _ _ _
  have hoct : octets (calculateBroadcast ip netmask) =
      [broadcastOctet (decimalValue p0) (decimalValue q0),
       broadcastOctet (decimalValue p1) (decimalValue q1),
       broadcastOctet (decimalValue p2) (decimalValue q2),
       broadcastOctet (decimalValue p3) (decimalValue q3)] := by
    simp only [octets, hsplit, List.map, n0.2, n1.2, n2.2, n3.2]
  have hoi : octets ip = [decimalValue p0, decimalValue p1, decimalValue p2, decimalValue p3] := by
    simp only [octets, hp, List.map]
  have hom : octets netmask =
      [decimalValue q0, decimalValue q1, decimalValue q2, decimalValue q3] := by
    simp only [octets, hq, List.map]
  have hidem := calculateBroadcast_parts hsplit hq n0.1 n1.1 n2.1 n3.1 hq0 hq1 hq2 hq3
  refine ⟨?_, ?_, ?_, ?_, ?_, ?_, ?_⟩
  · rw [hres, hoi, hom]; rfl
  · simp [isDottedQuad, hsplit, n0.1, n1.1, n2.1, n3.1]
  · rw [hoct, hoi, hom]; rfl
  · rw [hoct, hoi, hom]
    simp only [List.zipWith, broadcastOctet_land (Nat.lt_succ_of_le m0),
      broadcastOctet_land (Nat.lt_succ_of_le m1), broadcastOctet_land (Nat.lt_succ_of_le m2),
      broadcastOctet_land (Nat.lt_succ_of_le m3)]
  · rw [hoct, hom]
    simp only [List.zipWith, broadcastOctet_lor]
  · rw [hoct]
    intro b hb
    simp only [List.mem_cons, List.mem_singleton, List.not_mem_nil, or_false] at hb
    rcases hb with rfl | rfl | rfl | rfl <;> assumption
  · rw [hidem, hres]
    simp only [n0.2, n1.2, n2.2, n3.2, broadcastOctet_idem]

/-- C3, the example of the specification: `192.168.1.42` with `255.255.255.0` gives
`192.168.1.255`, and computing the broadcast of that again gives it back. -/
theorem calculateBroadcast_dotted_quad_witness :
    isDottedQuad (js "192.168.1.42") = true ∧ isDottedQuad (js "255.255.255.0") = true ∧
    calculateBroadcast (js "192.168.1.42") (js "255.255.255.0") = js "192.168.1.255" ∧
    octets (calculateBroadcast (js "192.168.1.42") (js "255.255.255.0")) = [192, 168, 1, 255] ∧
    calculateBroadcast (calculateBroadcast (js "192.168.1.42") (js "255.255.255.0"))
      (js "255.255.255.0") = calculateBroadcast (js "192.168.1.42") (js "255.255.255.0") :=
  ⟨by decide, by decide, by decide, by decide,
    (calculateBroadcast_dotted_quad (js "192.168.1.42") (js "255.255.255.0")
      (by decide) (by decide)).2.2.2.2.2.2⟩

theorem calculateBroadcastWith_eq_join (readInt32 : JSString → Fin (2 ^ 32))
    (ip netmask : JSString) :
    calculateBroadcastWith readInt32 ip netmask =
      join [46] ((split 46 ip).enum.map fun x : Nat × JSString =>
        int32ToString (broadcastInt32 readInt32 netmask x.1 x.2)) := by
  simp only [calculateBroadcastWith, broadcastInt32, List.enum_map, List.map_map,
    List.getElem?_map]
  congr 1
  apply List.map_congr_left
  intro x _
  simp only [Function.comp, Prod.map, id]
  cases hm : (split 46 netmask)[x.1]? <;> simp only [Option.map_none', Option.map_some']

theorem split_calculateBroadcastWith (readInt32 : JSString → Fin (2 ^ 32))
    (ip netmask : JSString) :
    split 46 (calculateBroadcastWith readInt32 ip netmask) =
      (split 46 ip).enum.map fun x : Nat × JSString =>
        int32ToString (broadcastInt32 readInt32 netmask x.1 x.2) := by
  rw [calculateBroadcastWith_eq_join]
  have hpos := split_length_pos 46 ip
  match hv : (split 46 ip).enum.map fun x : Nat × JSString =>
      int32ToString (broadcastInt32 readInt32 netmask x.1 x.2) with
  | [] =>
    have hlen := congrArg List.length hv
    simp only [List.length_map, List.enum_length, List.length_nil] at hlen
    omega
  | p :: ps =>
    apply split_join
    intro q hq
    rw [← hv, List.mem_map] at hq
    obtain ⟨y, _, rfl⟩ := hq
    exact dot_not_mem_int32ToString _

theorem calculateBroadcast_eq_with (readInt32 : JSString → Fin (2 ^ 32))
    (ip netmask : JSString)
    (h : ∀ part ∈ split 46 ip ++ split 46 netmask,
      part.all isDigit = true ∧ (readInt32 part).val = toInt32 (some (Number part))) :
    calculateBroadcast ip netmask = calculateBroadcastWith readInt32 ip netmask := by
  rw [calculateBroadcastWith_eq_join]
  simp only [calculateBroadcast, List.enum_map, List.map_map, List.getElem?_map]
  congr 1
  apply List.map_congr_left
  intro x hx
  have hmem : x.2 ∈ split 46 ip := by
    have := List.mem_map_of_mem Prod.snd hx
    rwa [List.enum_map_snd] at this
  simp only [Function.comp, Prod.map, id, broadcastInt32,
    (h x.2 (List.mem_append_left _ hmem)).2]
  cases hm : (split 46 netmask)[x.1]? with
  | none => rfl
  | some m =>
    simp only [Option.map_some', (h m (List.mem_append_right _ (List.getElem?_mem hm))).2]

/-- C7, refuted: these addresses are malformed (three parts; an octet above 255; parts
that are not numbers) and `calculateBroadcast` returns a string for each of them. -/
theorem calculateBroadcast_malformed_returns :
    isDottedQuad (js "192.168.1") = false ∧
    calculateBroadcast (js "192.168.1") (js "255.255.255.0") = js "192.168.1" ∧
    isDottedQuad (js "300.1.1.1") = false ∧
    calculateBroadcast (js "300.1.1.1") (js "255.255.255.0") = js "300.1.1.255" ∧
    isDottedQuad (js "a.b.c.d") = false ∧
    calculateBroadcast (js "a.b.c.d") (js "255.255.255.0") = js "0.0.0.255" := by
  decide

/-- C7 as amended. `calculateBroadcast` validates nothing and has no failing path. Whatever
32-bit integers the operators read from the parts (`readInt32`, that is `ToInt32` of
`Number`), for every address and netmask, well formed or not, the dot-separated parts of
the result are exactly the decimal forms of `octet | (~mask & 255)`, one for each part of
the address in order (a missing netmask part reads as 0), so the result has as many parts
as the address. When all parts are strings of ASCII digits, in any number and of any
value, `calculateBroadcast` is this function at the decimal reading of the parts. -/
theorem calculateBroadcast_no_validation (readInt32 : JSString → Fin (2 ^ 32))
    (ip netmask : JSString) :
    split 46 (calculateBroadcastWith readInt32 ip netmask) =
      ((split 46 ip).enum.map fun x : Nat × JSString =>
        int32ToString ((readInt32 x.2).val |||
          (bitNot (match (split 46 netmask)[x.1]? with
            | some m => (readInt32 m).val
            | none => 0) &&& 255))) ∧
    (split 46 (calculateBroadcastWith readInt32 ip netmask)).length = (split 46 ip).length ∧
    ((∀ part ∈ split 46 ip ++ split 46 netmask,
        part.all isDigit = true ∧ (readInt32 part).val = toInt32 (some (Number part))) →
      calculateBroadcast ip netmask = calculateBroadcastWith readInt32 ip netmask) := by
  refine ⟨split_calculateBroadcastWith readInt32 ip netmask, ?_,
    calculateBroadcast_eq_with readInt32 ip netmask⟩
  rw [split_calculateBroadcastWith]
  simp

/-- C7 as amended, an instance: the three-part address `192.168.1` with the reading of
decimal digits gives the three parts `192`, `168`, `1`, and this is what
`calculateBroadcast` returns. -/
theorem calculateBroadcast_no_validation_witness :
    (∀ part ∈ split 46 (js "192.168.1") ++ split 46 (js "255.255.255.0"),
      part.all isDigit = true ∧ (readDecimal part).val = toInt32 (some (Number part))) ∧
    split 46 (calculateBroadcastWith readDecimal (js "192.168.1") (js "255.255.255.0")) =
      [js "192", js "168", js "1"] ∧
    calculateBroadcast (js "192.168.1") (js "255.255.255.0") =
      calculateBroadcastWith readDecimal (js "192.168.1") (js "255.255.255.0") :=
  ⟨by decide,
    (calculateBroadcast_no_validation readDecimal (js "192.168.1")
      (js "255.255.255.0")).1.trans (by decide),
    (calculateBroadcast_no_validation readDecimal (js "192.168.1")
      (js "255.255.255.0")).2.2 (by decide)⟩

theorem unhex_of_isHexDigit_aux : ∀ c < 103, isHexDigit c = true → unhex c = some (hexDigitValue c) := by
  decide

theorem isHexDigit_lt {c : Nat} (h : isHexDigit c = true) : c < 103 := by
  simp [isHexDigit, js] at h
  omega

theorem unhex_of_isHexDigit {c : Nat} (h : isHexDigit c = true) :
    unhex c = some (hexDigitValue c) :=
  unhex_of_isHexDigit_aux c (isHexDigit_lt h) h

theorem packet_fill (b0 b1 b2 b3 b4 b5 : Nat) :
    (List.range 16).foldl (fun pkt i => bufferCopy [b0, b1, b2, b3, b4, b5] pkt (6 + i * 6))
      ((List.range 6).foldl (fun pkt i => pkt.set i 0xFF) (bufferAlloc 102)) =
    List.replicate 6 255 ++ (List.replicate 16 [b0, b1, b2, b3, b4, b5]).flatten := by
  simp [List.range, List.range.loop, bufferCopy, bufferAlloc, List.replicate]

theorem packet_layout (b0 b1 b2 b3 b4 b5 : Nat) :
    (List.replicate 6 255 ++ (List.replicate 16 [b0, b1, b2, b3, b4, b5]).flatten).length = 102 ∧
    (∀ k < 6, (List.replicate 6 255 ++
      (List.replicate 16 [b0, b1, b2, b3, b4, b5]).flatten)[k]? = some 255) ∧
    (∀ i < 16, ∀ j < 6, (List.replicate 6 255 ++
      (List.replicate 16 [b0, b1, b2, b3, b4, b5]).flatten)[6 + 6 * i + j]? =
        [b0, b1, b2, b3, b4, b5][j]?) := by
  refine ⟨rfl, ?_, ?_⟩
  · intro k hk
    interval_cases k <;> rfl
  · intro i hi j hj
    interval_cases i <;> interval_cases j <;> rfl

theorem bufferFromHex_mac {mac : JSString} (hlen : mac.length = 12)
    (hhex : mac.all isHexDigit = true) : bufferFromHex mac = macBytes mac := by
  match mac, hlen, hhex with
  | [c0, c1, c2, c3, c4, c5, c6, c7, c8, c9, c10, c11], _, hhex =>
    simp only [List.all_cons, List.all_nil, Bool.and_true, Bool.and_eq_true] at hhex
    obtain ⟨h0, h1, h2, h3, h4, h5, h6, h7, h8, h9, h10, h11⟩ := hhex
    simp [bufferFromHex, macBytes, unhex_of_isHexDigit, h0, h1, h2, h3, h4, h5, h6, h7, h8,
      h9, h10, h11, List.range, List.range.loop, Nat.mul_comm]

theorem macBytes_eq (mac : JSString) : ∃ b0 b1 b2 b3 b4 b5, macBytes mac = [b0, b1, b2, b3, b4, b5] :=
  ⟨_, _, _, _, _, _, rfl⟩

/-- C1. When the MAC string, with `:` and `-` removed and lower-cased, is exactly twelve
hexadecimal characters, `createMagicPacket` returns a buffer of exactly 102 bytes whose
bytes 0..5 are `0xFF` and whose bytes `6+6i .. 6+6i+5`, for every `i` in 0..15, are the six
bytes denoted by those characters; any other input with the same normalised form (another
separator style or letter case) yields the identical packet. -/
theorem createMagicPacket_layout (macAddress : JSString)
    (hlen : (toLowerCase (removeSeparators macAddress)).length = 12)
    (hhex : (toLowerCase (removeSeparators macAddress)).all isHexDigit = true) :
    ∃ packet, createMagicPacket macAddress = .ok packet ∧
      packet.length = 102 ∧
      (∀ k < 6, packet[k]? = some 255) ∧
      (∀ i < 16, ∀ j < 6, packet[6 + 6 * i + j]? =
        (macBytes (toLowerCase (removeSeparators macAddress)))[j]?) ∧
      (∀ other, toLowerCase (removeSeparators other) =
          toLowerCase (removeSeparators macAddress) →
        createMagicPacket other = .ok packet) := by
  obtain ⟨b0, b1, b2, b3, b4, b5, hb⟩ := macBytes_eq (toLowerCase (removeSeparators macAddress))
  have hcreate : ∀ other, toLowerCase (removeSeparators other) =
      toLowerCase (removeSeparators macAddress) →
      createMagicPacket other = .ok (List.replicate 6 255 ++
        (List.replicate 16 [b0, b1, b2, b3, b4, b5]).flatten) := by
    intro other hother
    unfold createMagicPacket
    simp only [hother, hlen, ne_eq, not_true_eq_false, if_false, bufferFromHex_mac hlen hhex, hb,
      packet_fill]
  obtain ⟨h1, h2, h3⟩ := packet_layout b0 b1 b2 b3 b4 b5
  exact ⟨_, hcreate macAddress rfl, h1, h2, hb ▸ h3, hcreate⟩

/-! ## Regular expressions -/

theorem mem_reLit (s x : JSString) : x ∈ (reLit s).matches' ↔ x = s := by
  induction s generalizing x with
  | nil => simp [reLit, Language.mem_one]
  | cons c cs ih =>
    have hunf : reLit (c :: cs) = RegularExpression.char c * reLit cs := rfl
    rw [hunf, RegularExpression.matches'_mul, Language.mem_mul]
    constructor
    · rintro ⟨a, ha, b, hb, rfl⟩
      have ha2 : a = [c] := ha
      rw [ha2, (ih b).1 hb]
      rfl
    · rintro rfl
      exact ⟨[c], rfl, cs, (ih cs).2 rfl, rfl⟩

theorem mem_reClass (cs : List Nat) (x : JSString) :
    x ∈ (reClass cs).matches' ↔ ∃ c ∈ cs, x = [c] := by
  induction cs with
  | nil =>
    have hunf : reClass [] = (0 : RegularExpression Nat) := rfl
    rw [hunf, RegularExpression.matches'_zero]
    simp [Language.not_mem_zero]
  | cons c cs ih =>
    have hunf : reClass (c :: cs) = RegularExpression.char c + reClass cs := rfl
    rw [hunf, RegularExpression.matches'_add, Language.mem_add, ih]
    constructor
    · rintro (h | ⟨d, hd, rfl⟩)
      · exact ⟨c, by simp, h⟩
      · exact ⟨d, by simp [hd], rfl⟩
    · rintro ⟨d, hd, rfl⟩
      rcases List.mem_cons.1 hd with rfl | hd
      · exact Or.inl rfl
      · exact Or.inr ⟨d, hd, rfl⟩

theorem mem_star_reClass (cs : List Nat) (x : JSString) :
    x ∈ (reClass cs).star.matches' ↔ ∀ c ∈ x, c ∈ cs := by
  rw [RegularExpression.matches'_star, Language.mem_kstar]
  constructor
  · rintro ⟨L, rfl, hL⟩ c hc
    obtain ⟨y, hy, hcy⟩ := List.mem_flatten.1 hc
    obtain ⟨d, hd, rfl⟩ := (mem_reClass cs y).1 (hL y hy)
    rw [List.mem_singleton] at hcy
    exact hcy ▸ hd
  · intro h
    refine ⟨x.map fun c => [c], ?_, ?_⟩
    · clear h
      induction x with
      | nil => rfl
      | cons a l ih => simp [← ih]
    · intro y hy
      obtain ⟨c, hc, rfl⟩ := List.mem_map.1 hy
      exact (mem_reClass cs [c]).2 ⟨c, h c hc, rfl⟩

theorem mem_rePlus_reClass (cs : List Nat) (x : JSString) :
    x ∈ (rePlus (reClass cs)).matches' ↔ x ≠ [] ∧ ∀ c ∈ x, c ∈ cs := by
  unfold rePlus
  rw [RegularExpression.matches'_mul, Language.mem_mul]
  constructor
  · rintro ⟨a, ha, b, hb, rfl⟩
    obtain ⟨d, hd, rfl⟩ := (mem_reClass cs a).1 ha
    refine ⟨by simp, ?_⟩
    intro c hc
    rcases List.mem_append.1 hc with hc | hc
    · rw [List.mem_singleton] at hc; exact hc ▸ hd
    · exact (mem_star_reClass cs b).1 hb c hc
  · rintro ⟨hne, h⟩
    cases x with
    | nil => exact absurd rfl hne
    | cons a l =>
      exact ⟨[a], (mem_reClass cs [a]).2 ⟨a, h a (by simp), rfl⟩, l,
        (mem_star_reClass cs l).2 fun c hc => h c (by simp [hc]), rfl⟩

theorem mem_reRepeat_reClass (cs : List Nat) (n : Nat) (x : JSString) :
    x ∈ (reRepeat (reClass cs) n).matches' ↔ x.length = n ∧ ∀ c ∈ x, c ∈ cs := by
  induction n generalizing x with
  | zero =>
    have hunf : reRepeat (reClass cs) 0 = (1 : RegularExpression Nat) := rfl
    rw [hunf, RegularExpression.matches'_epsilon, Language.mem_one]
    constructor
    · rintro rfl; simp
    · rintro ⟨h, _⟩; exact List.length_eq_zero.1 h
  | succ n ih =>
    have hunf : reRepeat (reClass cs) (n + 1) = reClass cs * reRepeat (reClass cs) n := rfl
    rw [hunf, RegularExpression.matches'_mul, Language.mem_mul]
    constructor
    · rintro ⟨a, ha, b, hb, rfl⟩
      obtain ⟨d, hd, rfl⟩ := (mem_reClass cs a).1 ha
      obtain ⟨hlen, hall⟩ := (ih b).1 hb
      refine ⟨by simp [hlen], ?_⟩
      intro c hc
      rcases List.mem_append.1 hc with hc | hc
      · rw [List.mem_singleton] at hc; exact hc ▸ hd
      · exact hall c hc
    · rintro ⟨hlen, h⟩
      cases x with
      | nil => simp at hlen
      | cons a l =>
        exact ⟨[a], (mem_reClass cs [a]).2 ⟨a, h a (by simp), rfl⟩, l,
          (ih l).2 ⟨by simpa using hlen, fun c hc => h c (by simp [hc])⟩, rfl⟩

theorem mem_digits (c : Nat) : c ∈ js "0123456789" ↔ isDigit c = true := by
  simp [js, isDigit]
  omega

theorem mem_hexLower (c : Nat) : c ∈ js "abcdef0123456789" ↔ isHexLower c = true := by
  simp [js, isHexLower, isDigit]
  omega

theorem mem_plus_digit (x : JSString) : x ∈ (rePlus reDigit).matches' ↔ IsDigits x := by
  unfold reDigit IsDigits
  rw [mem_rePlus_reClass]
  simp only [mem_digits]

theorem mem_plus_hex (x : JSString) :
    x ∈ (rePlus reHexLower).matches' ↔ x ≠ [] ∧ IsHexLower x := by
  unfold reHexLower IsHexLower
  rw [mem_rePlus_reClass]
  simp only [mem_hexLower]

theorem mem_repeat_hex (n : Nat) (x : JSString) :
    x ∈ (reRepeat reHexLower n).matches' ↔ x.length = n ∧ IsHexLower x := by
  unfold reHexLower IsHexLower
  rw [mem_reRepeat_reClass]
  simp only [mem_hexLower]

theorem test_lit_mul (s : JSString) (r : RegularExpression Nat) (name : JSString) :
    test (reLit s * r) name = true ↔ ∃ t, t ∈ r.matches' ∧ name = s ++ t := by
  unfold test
  rw [RegularExpression.rmatch_iff_matches', RegularExpression.matches'_mul, Language.mem_mul]
  constructor
  · rintro ⟨a, ha, b, hb, rfl⟩
    exact ⟨b, hb, by rw [(mem_reLit s a).1 ha]⟩
  · rintro ⟨t, ht, rfl⟩
    exact ⟨s, (mem_reLit s s).2 rfl, t, ht, rfl⟩

theorem test_lit_digits (s name : JSString) :
    test (reLit s * rePlus reDigit) name = true ↔ ∃ ds, IsDigits ds ∧ name = s ++ ds := by
  rw [test_lit_mul]
  simp only [mem_plus_digit]

theorem test_lit_digits_lit_digits (s t name : JSString) :
    test (reLit s * rePlus reDigit * reLit t * rePlus reDigit) name = true ↔
      ∃ d1 d2, IsDigits d1 ∧ IsDigits d2 ∧ name = s ++ d1 ++ t ++ d2 := by
  unfold test
  rw [RegularExpression.rmatch_iff_matches']
  simp only [RegularExpression.matches'_mul, Language.mem_mul, mem_reLit, mem_plus_digit]
  constructor
  · rintro ⟨a, ⟨b, ⟨c, rfl, d1, hd1, rfl⟩, e, rfl, rfl⟩, d2, hd2, rfl⟩
    exact ⟨d1, d2, hd1, hd2, rfl⟩
  · rintro ⟨d1, d2, hd1, hd2, rfl⟩
    exact ⟨_, ⟨_, ⟨s, rfl, d1, hd1, rfl⟩, t, rfl, rfl⟩, d2, hd2, rfl⟩

theorem isDockerInterface_iff (name ip : JSString) :
    isDockerInterface name ip = true ↔
      (∃ ds, IsDigits ds ∧ name = js "docker" ++ ds) ∨
      (∃ hs, hs.length = 12 ∧ IsHexLower hs ∧ name = js "br-" ++ hs) ∨
      (∃ hs, hs ≠ [] ∧ IsHexLower hs ∧ name = js "veth" ++ hs) := by
  simp only [isDockerInterface, dockerPatterns, List.any_cons, List.any_nil, Bool.or_false,
    Bool.or_eq_true, test_lit_mul, mem_plus_digit, mem_repeat_hex, mem_plus_hex, and_assoc]

theorem localPatterns_iff (name : JSString) :
    (localPatterns.any fun pattern => test pattern name) = true ↔
      (∃ ds, IsDigits ds ∧ name = js "eth" ++ ds) ∨
      (∃ ds, IsDigits ds ∧ name = js "ens" ++ ds) ∨
      (∃ d1 d2, IsDigits d1 ∧ IsDigits d2 ∧ name = js "enp" ++ d1 ++ js "s" ++ d2) ∨
      (∃ ds, IsDigits ds ∧ name = js "eno" ++ ds) ∨
      (∃ ds, IsDigits ds ∧ name = js "wlan" ++ ds) ∨
      (∃ d1 d2, IsDigits d1 ∧ IsDigits d2 ∧ name = js "wlp" ++ d1 ++ js "s" ++ d2) := by
  simp only [localPatterns, List.any_cons, List.any_nil, Bool.or_false,
    Bool.or_eq_true, test_lit_digits, test_lit_digits_lit_digits]

theorem localPrefix_iff (env : ProcessEnv) (ip : JSString) :
    (match ( LOCAL_NETWORK_PREFIX env) with
      | some p => p != [] && startsWith ip p
      | none => false) = true ↔
    ∃ p, ( LOCAL_NETWORK_PREFIX env) = some p ∧ startsWith ip p = true := by
  unfold LOCAL_NETWORK_PREFIX
  cases h : env.localNetworkPrefixVar with
  | none => simp [orNull]
  | some p =>
    cases p with
    | nil => simp [orNull]
    | cons c cs => simp [orNull]

/-- C5. `isDockerInterface` is true exactly when the whole name is `docker` followed by
one or more ASCII digits, or `br-` followed by exactly 12 characters of `[a-f0-9]`, or
`veth` followed by one or more characters of `[a-f0-9]`, whatever the address.
`isLocalInterface` is true exactly when the name is `eth0`, or a local prefix is
configured and the address starts with it, or the whole name has one of the forms
`eth<digits>`, `ens<digits>`, `enp<digits>s<digits>`, `eno<digits>`, `wlan<digits>`,
`wlp<digits>s<digits>`. So `docker0`, `br-0123456789ab` and `veth1a2b3c` are Docker, and
`eth0` is local and not Docker. -/
theorem classifier_rules (env : ProcessEnv) (name ip : JSString) :
    (isDockerInterface name ip = true ↔
      (∃ ds, IsDigits ds ∧ name = js "docker" ++ ds) ∨
      (∃ hs, hs.length = 12 ∧ IsHexLower hs ∧ name = js "br-" ++ hs) ∨
      (∃ hs, hs ≠ [] ∧ IsHexLower hs ∧ name = js "veth" ++ hs)) ∧
    (∀ ip2, isDockerInterface name ip2 = isDockerInterface name ip) ∧
    (isLocalInterface env name ip = true ↔
      name = js "eth0" ∨
      (∃ p, ( LOCAL_NETWORK_PREFIX env) = some p ∧ startsWith ip p = true) ∨
      (∃ ds, IsDigits ds ∧ name = js "eth" ++ ds) ∨
      (∃ ds, IsDigits ds ∧ name = js "ens" ++ ds) ∨
      (∃ d1 d2, IsDigits d1 ∧ IsDigits d2 ∧ name = js "enp" ++ d1 ++ js "s" ++ d2) ∨
      (∃ ds, IsDigits ds ∧ name = js "eno" ++ ds) ∨
      (∃ ds, IsDigits ds ∧ name = js "wlan" ++ ds) ∨
      (∃ d1 d2, IsDigits d1 ∧ IsDigits d2 ∧ name = js "wlp" ++ d1 ++ js "s" ++ d2)) ∧
    isDockerInterface (js "docker0") ip = true ∧
    isDockerInterface (js "br-0123456789ab") ip = true ∧
    isDockerInterface (js "veth1a2b3c") ip = true ∧
    isLocalInterface env (js "eth0") ip = true ∧
    isDockerInterface (js "eth0") ip = false := by
  have e1 : isDockerInterface (js "docker0") [] = true := by decide
  have e2 : isDockerInterface (js "br-0123456789ab") [] = true := by decide
  have e3 : isDockerInterface (js "veth1a2b3c") [] = true := by decide
  have e4 : isDockerInterface (js "eth0") [] = false := by decide
  refine ⟨isDockerInterface_iff name ip, fun _ => rfl, ?_, e1, e2, e3,
    by simp [isLocalInterface], e4⟩
  unfold isLocalInterface
  by_cases h0 : name = js "eth0"
  · simp [h0]
  · rw [if_neg h0]
    by_cases hp : (match ( LOCAL_NETWORK_PREFIX env) with
        | some p => p != [] && startsWith ip p
        | none => false) = true
    · rw [if_pos hp]
      simp only [true_iff]
      exact Or.inr (Or.inl ((localPrefix_iff env ip).1 hp))
    · rw [if_neg hp, localPatterns_iff]
      have hp2 := mt (localPrefix_iff env ip).2 hp
      simp only [h0, hp2, false_or]

/-! ## Selection -/

theorem filter_getElem?_zero {α : Type} (p : α → Bool) (l : List α) :
    (l.filter p)[0]? = l.find? p := by
  induction l with
  | nil => rfl
  | cons a l ih =>
    by_cases h : p a = true
    · simp [List.filter, List.find?, h]
    · simp only [Bool.not_eq_true] at h
      simp [List.filter, List.find?, h, ih]

theorem filter_length_zero {α : Type} (p : α → Bool) (l : List α)
    (h : ¬ (l.filter p).length > 0) : l.find? p = none := by
  rw [← filter_getElem?_zero]
  have : l.filter p = [] := List.length_eq_zero.1 (by omega)
  rw [this]; rfl

theorem find?_filter_and {α : Type} (p q : α → Bool) (l : List α) :
    (l.filter p).find? q = l.find? (fun a => p a && q a) := by
  induction l with
  | nil => rfl
  | cons a l ih =>
    by_cases hp : p a = true
    · by_cases hq : q a = true
      · simp [List.filter, List.find?, hp, hq]
      · simp only [Bool.not_eq_true] at hq
        simp [List.filter, List.find?, hp, hq, ih]
    · simp only [Bool.not_eq_true] at hp
      simp [List.filter, List.find?, hp, ih]

theorem selectLocal_eq_spec (all : List InterfaceRecord) :
    selectLocal all = specLocalChoice all := by
  have hpool : inLocalPool = fun i : InterfaceRecord => i.isLocal && !i.isDocker := rfl
  unfold selectLocal specLocalChoice
  simp only [startsWith, find?_filter_and, filter_getElem?_zero, hpool]
  split
  · cases h1 : all.find?
        (fun i => (i.isLocal && !i.isDocker) && (js "eth").isPrefixOf i.name) with
    | some r => simp
    | none =>
      cases h2 : all.find?
          (fun i => (i.isLocal && !i.isDocker) && (js "ens").isPrefixOf i.name) with
      | some r => simp
      | none => simp
  · rename_i h
    have hnone := filter_length_zero (fun i : InterfaceRecord => i.isLocal && !i.isDocker) all h
    have h1 : all.find?
        (fun i => (i.isLocal && !i.isDocker) && (js "eth").isPrefixOf i.name) = none := by
      rw [List.find?_eq_none] at hnone ⊢
      intro x hx hp
      simp only [Bool.and_eq_true] at hp
      exact hnone x hx (by simpa using hp.1)
    have h2 : all.find?
        (fun i => (i.isLocal && !i.isDocker) && (js "ens").isPrefixOf i.name) = none := by
      rw [List.find?_eq_none] at hnone ⊢
      intro x hx hp
      simp only [Bool.and_eq_true] at hp
      exact hnone x hx (by simpa using hp.1)
    rw [h1, h2, hnone]

theorem selectDocker_eq_spec (all : List InterfaceRecord) :
    selectDocker all = specDockerChoice all := by
  unfold selectDocker specDockerChoice
  simp only [find?_filter_and, filter_getElem?_zero]
  split
  · cases h1 : all.find? (fun i => i.isDocker && i.name == js "docker0") with
    | some r => simp
    | none => simp
  · rename_i h
    have hnone := filter_length_zero (fun i : InterfaceRecord => i.isDocker) all h
    have h1 : all.find? (fun i => i.isDocker && i.name == js "docker0") = none := by
      rw [List.find?_eq_none] at hnone ⊢
      intro x hx hp
      simp only [Bool.and_eq_true] at hp
      exact hnone x hx hp.1
    rw [h1, hnone]

/-- C4. From a state with both slots unset, `autoDetect` sets the local slot to the first
record with `isLocal && !isDocker` whose name starts with `eth`, else the first such
record whose name starts with `ens`, else the first such record, else leaves it null; it
sets the docker slot to the `isDocker` record named `docker0`, else to the first
`isDocker` record, else leaves it null; the returned object holds these two slots and the
enumerated list. -/
theorem autoDetect_selection (env : ProcessEnv) (interfaces : OSInterfaces)
    (timestamp : JSString) (self : NetworkConfig)
    (hlocal : self.localInterface = none) (hdocker : self.dockerInterface = none) :
    (autoDetect env interfaces timestamp self).1 =
      ⟨specLocalChoice (detectAllInterfaces env interfaces),
       specDockerChoice (detectAllInterfaces env interfaces),
       detectAllInterfaces env interfaces⟩ ∧
    (autoDetect env interfaces timestamp self).2.1 =
      ⟨specLocalChoice (detectAllInterfaces env interfaces),
       specDockerChoice (detectAllInterfaces env interfaces),
       detectAllInterfaces env interfaces⟩ ∧
    ∀ enumerated : List InterfaceRecord,
      autoDetectWith enumerated self =
        (⟨specLocalChoice enumerated, specDockerChoice enumerated, enumerated⟩,
         ⟨specLocalChoice enumerated, specDockerChoice enumerated, enumerated⟩) := by
  have key : ∀ enumerated : List InterfaceRecord,
      autoDetectWith enumerated self =
        (⟨specLocalChoice enumerated, specDockerChoice enumerated, enumerated⟩,
         ⟨specLocalChoice enumerated, specDockerChoice enumerated, enumerated⟩) := by
    intro enumerated
    simp only [autoDetectWith, hlocal, hdocker, selectLocal_eq_spec, selectDocker_eq_spec]
  refine ⟨?_, ?_, key⟩
  · simp only [autoDetect, key]
  · simp only [autoDetect, key]

/-! ## Enumeration -/

theorem detectStep_append (env : ProcessEnv) (acc : List InterfaceRecord)
    (entry : JSString × List AddressEntry) :
    detectStep env acc entry = acc ++ detectStep env [] entry := by
  unfold detectStep
  simp only
  split
  · simp
  · split <;> simp

theorem foldl_detectStep (env : ProcessEnv) (l : OSInterfaces) (acc : List InterfaceRecord) :
    l.foldl (detectStep env) acc = acc ++ l.foldl (detectStep env) [] := by
  induction l generalizing acc with
  | nil => simp
  | cons e l ih =>
    simp only [List.foldl_cons]
    rw [ih (detectStep env acc e), ih (detectStep env [] e), detectStep_append env acc e,
      List.append_assoc]

theorem detectAllInterfaces_cons (env : ProcessEnv) (e : JSString × List AddressEntry)
    (l : OSInterfaces) :
    detectAllInterfaces env (e :: l) = detectStep env [] e ++ detectAllInterfaces env l := by
  unfold detectAllInterfaces
  rw [List.foldl_cons, foldl_detectStep]

theorem find?_eq_filter_head? {α : Type} (p : α → Bool) (l : List α) :
    l.find? p = (l.filter p).head? := by
  rw [List.head?_eq_getElem?, filter_getElem?_zero]

theorem detectStep_not_qualifies (env : ProcessEnv) (e : JSString × List AddressEntry)
    (h : qualifies ( EXCLUDE_INTERFACES env) e = false) : detectStep env [] e = [] := by
  unfold detectStep
  simp only
  split
  · rfl
  · rename_i hex
    have hc : ( EXCLUDE_INTERFACES env).contains e.1 = false := by
      simpa only [Bool.not_eq_true] using hex
    have hany : e.2.any isExternalIPv4 = false := by
      simpa only [qualifies, hc, Bool.not_false, Bool.true_and] using h
    have hnone : e.2.find? isExternalIPv4 = none := by
      rw [List.find?_eq_none]
      intro x hx hp
      have : e.2.any isExternalIPv4 = true := List.any_eq_true.2 ⟨x, hx, hp⟩
      rw [hany] at this
      exact Bool.noConfusion this
    have hfun : (fun addr : AddressEntry => addr.family == js "IPv4" && !addr.internal) =
        isExternalIPv4 := rfl
    rw [hfun, hnone]

theorem detectStep_qualifies (env : ProcessEnv) (e : JSString × List AddressEntry)
    (h : qualifies ( EXCLUDE_INTERFACES env) e = true) :
    ∃ r, detectStep env [] e = [r] ∧ RecordFor env r e := by
  have hq : ( EXCLUDE_INTERFACES env).contains e.1 = false ∧ e.2.any isExternalIPv4 = true := by
    simpa only [qualifies, Bool.and_eq_true, Bool.not_eq_true'] using h
  obtain ⟨x, hx, hp⟩ := List.any_eq_true.1 hq.2
  have hsome : (e.2.find? isExternalIPv4).isSome = true := List.find?_isSome.2 ⟨x, hx, hp⟩
  obtain ⟨ipv4, hfind⟩ := Option.isSome_iff_exists.1 hsome
  have hfun : (fun addr : AddressEntry => addr.family == js "IPv4" && !addr.internal) =
      isExternalIPv4 := rfl
  have hstep : detectStep env [] e =
      [{ name := e.1
         address := ipv4.address
         netmask := ipv4.netmask
         broadcast := calculateBroadcast ipv4.address ipv4.netmask
         mac := match ipv4.mac with
           | some (c :: cs) => c :: cs
           | _ => js "N/A"
         isDocker := isDockerInterface e.1 ipv4.address
         isLocal := isLocalInterface env e.1 ipv4.address }] := by
    unfold detectStep
    simp only [hq.1, hfun, hfind, Bool.false_eq_true, if_false, List.nil_append]
  refine ⟨_, hstep, ipv4, ?_, rfl, rfl, rfl, rfl, ?_, ?_, rfl, rfl⟩
  · rw [← find?_eq_filter_head?]; exact hfind
  · intro m hm hne
    cases m with
    | nil => exact absurd rfl hne
    | cons c cs => simp only [hm]
  · intro hm
    rcases hm with hm | hm <;> simp only [hm]

/-- C6. `detectAllInterfaces` returns exactly one record, in table order, for each entry
of the interface table whose name is not in the exclusion list and that has an address
entry with family IPv4 and `internal = false`, and no record for any other entry. Each
record takes address and netmask from the first such address entry; its broadcast is
`calculateBroadcast(address, netmask)`, its mac the entry's mac or `N/A` when that is
absent (or empty), and its tags are the classifier results for name and address. -/
theorem detectAllInterfaces_records (env : ProcessEnv) (interfaces : OSInterfaces) :
    List.Forall₂ (RecordFor env) (detectAllInterfaces env interfaces)
      (interfaces.filter (qualifies ( EXCLUDE_INTERFACES env))) ∧
    (detectAllInterfaces env interfaces).map (fun r => r.name) =
      (interfaces.filter (qualifies ( EXCLUDE_INTERFACES env))).map (fun e => e.1) ∧
    (∀ r ∈ detectAllInterfaces env interfaces, r.name ∉ EXCLUDE_INTERFACES env) := by
  have hall : List.Forall₂ (RecordFor env) (detectAllInterfaces env interfaces)
      (interfaces.filter (qualifies ( EXCLUDE_INTERFACES env))) := by
    induction interfaces with
    | nil => exact List.Forall₂.nil
    | cons e l ih =>
      rw [detectAllInterfaces_cons]
      cases hq : qualifies ( EXCLUDE_INTERFACES env) e with
      | false =>
        rw [detectStep_not_qualifies env e hq, List.filter_cons_of_neg (by simp [hq])]
        exact ih
      | true =>
        obtain ⟨r, hr, hrec⟩ := detectStep_qualifies env e hq
        rw [hr, List.filter_cons_of_pos hq]
        exact List.Forall₂.cons hrec ih
  have hnames : ∀ (rs : List InterfaceRecord) (es : OSInterfaces),
      List.Forall₂ (RecordFor env) rs es →
      rs.map (fun r => r.name) = es.map (fun e => e.1) := by
    intro rs es h
    induction h with
    | nil => rfl
    | cons hre _ ih =>
      obtain ⟨_, _, hname, _⟩ := hre
      simp only [List.map_cons, hname, ih]
  refine ⟨hall, hnames _ _ hall, ?_⟩
  intro r hr hmem
  have hn : r.name ∈ (detectAllInterfaces env interfaces).map (fun r => r.name) :=
    List.mem_map.2 ⟨r, hr, rfl⟩
  rw [hnames _ _ hall] at hn
  obtain ⟨e, he, hname⟩ := List.mem_map.1 hn
  have hq := (List.mem_filter.1 he).2
  simp only [qualifies, Bool.and_eq_true, Bool.not_eq_true', List.contains_eq_any_beq,
    List.any_eq_false, beq_iff_eq] at hq
  exact hq.1 r.name hmem hname

/-- The enumeration of `mixedTable`: `lo` is excluded, the five other interfaces give one
record each, in table order. -/
theorem detectAllInterfaces_mixedTable :
    (detectAllInterfaces emptyEnv mixedTable).map
        (fun r => (r.name, r.broadcast, r.isDocker, r.isLocal)) =
      [(js "br-0123456789ab", js "172.18.255.255", true, false),
       (js "wlan0", js "192.168.1.255", false, true),
       (js "docker0", js "172.17.255.255", true, false),
       (js "ens3", js "10.0.3.255", false, true),
       (js "eth0", js "192.168.1.255", false, true)] := by
  decide

/-- C4, an instance: on `mixedTable` with both slots unset the local slot becomes `eth0`
(an `eth` name is preferred to the earlier `wlan0` and `ens3`) and the docker slot becomes
`docker0` (preferred to the earlier bridge). -/
theorem autoDetect_selection_witness :
    NetworkConfig.new.localInterface = none ∧ NetworkConfig.new.dockerInterface = none ∧
    (autoDetect emptyEnv mixedTable [] NetworkConfig.new).1 =
      ⟨specLocalChoice (detectAllInterfaces emptyEnv mixedTable),
       specDockerChoice (detectAllInterfaces emptyEnv mixedTable),
       detectAllInterfaces emptyEnv mixedTable⟩ ∧
    (specLocalChoice (detectAllInterfaces emptyEnv mixedTable)).map (fun r => r.name) =
      some (js "eth0") ∧
    (specDockerChoice (detectAllInterfaces emptyEnv mixedTable)).map (fun r => r.name) =
      some (js "docker0") :=
  ⟨rfl, rfl, (autoDetect_selection emptyEnv mixedTable [] NetworkConfig.new rfl rfl).1,
    by decide, by decide⟩

/-- C8, refuted: the enumeration of `ens3`, `eth1`, `eth0` (in this order) gives three
records with `isLocal` and not `isDocker`, and with the local slot unset `autoDetect`
selects `eth1`, which is not `eth0`. -/
theorem autoDetect_priority_not_eth0 :
    (detectAllInterfaces emptyEnv priorityTable).map (fun r => (r.name, r.isLocal, r.isDocker)) =
      [(js "ens3", true, false), (js "eth1", true, false), (js "eth0", true, false)] ∧
    (autoDetect emptyEnv priorityTable [] NetworkConfig.new).1.localInterface =
      some (priorityRecord "eth1" "10.0.1.5" "10.0.1.255") ∧
    (autoDetect emptyEnv priorityTable [] NetworkConfig.new).1.localInterface ≠
      some (priorityRecord "eth0" "10.0.0.5" "10.0.0.255") := by
  decide

/-- C8 as amended. When the enumerated interfaces are `ens3`, `eth1`, `eth0` in that
order, all with `isLocal` and not `isDocker`, and the local slot is unset, `autoDetect`
selects `eth1`, the first record in enumeration order whose name starts with `eth`. -/
theorem autoDetect_priority_first_eth (r1 r2 r3 : InterfaceRecord) (self : NetworkConfig)
    (hn1 : r1.name = js "ens3") (hn2 : r2.name = js "eth1") (hn3 : r3.name = js "eth0")
    (hl1 : r1.isLocal = true) (hl2 : r2.isLocal = true) (hl3 : r3.isLocal = true)
    (hd1 : r1.isDocker = false) (hd2 : r2.isDocker = false) (hd3 : r3.isDocker = false)
    (hself : self.localInterface = none) :
    (autoDetectWith [r1, r2, r3] self).1.localInterface = some r2 ∧
    (autoDetectWith [r1, r2, r3] self).2.localInterface = some r2 ∧
    (autoDetectWith [r1, r2, r3] self).1.localInterface ≠ some r3 ∧
    (autoDetectWith [r1, r2, r3] self).1.localInterface ≠ some r1 := by
  have hsel : selectLocal [r1, r2, r3] = some r2 := by
    have e1 : startsWith (js "ens3") (js "eth") = false := by decide
    have e2 : startsWith (js "eth1") (js "eth") = true := by decide
    simp [selectLocal, List.filter, List.find?, hn1, hn2, hl1, hl2, hl3, hd1, hd2, hd3,
      e1, e2]
  have hloc : (autoDetectWith [r1, r2, r3] self).1.localInterface = some r2 := by
    simp only [autoDetectWith, hself, hsel]
    split <;> rfl
  have h23 : r2 ≠ r3 := fun e => absurd (hn2.symm.trans ((congrArg InterfaceRecord.name e).trans hn3))
    (by decide)
  have h21 : r2 ≠ r1 := fun e => absurd (hn2.symm.trans ((congrArg InterfaceRecord.name e).trans hn1))
    (by decide)
  refine ⟨hloc, hloc, ?_, ?_⟩
  · rw [hloc]; exact fun e => h23 (Option.some.inj e)
  · rw [hloc]; exact fun e => h21 (Option.some.inj e)

/-- C8 as amended, an instance with the three records written out. -/
theorem autoDetect_priority_first_eth_witness :
    (autoDetectWith
      [priorityRecord "ens3" "10.0.3.5" "10.0.3.255",
       priorityRecord "eth1" "10.0.1.5" "10.0.1.255",
       priorityRecord "eth0" "10.0.0.5" "10.0.0.255"] NetworkConfig.new).1.localInterface =
      some (priorityRecord "eth1" "10.0.1.5" "10.0.1.255") :=
  (autoDetect_priority_first_eth _ _ _ NetworkConfig.new rfl rfl rfl rfl rfl rfl rfl rfl rfl
    rfl).1

/-! ## Slots that are already set -/

theorem autoDetectWith_local (enumerated : List InterfaceRecord) (self : NetworkConfig)
    (h : self.localInterface ≠ none) :
    (autoDetectWith enumerated self).1.localInterface = self.localInterface := by
  cases hl : self.localInterface with
  | none => exact absurd hl h
  | some r =>
    simp only [autoDetectWith, hl]
    split <;> rfl

theorem autoDetectWith_docker (enumerated : List InterfaceRecord) (self : NetworkConfig)
    (h : self.dockerInterface ≠ none) :
    (autoDetectWith enumerated self).1.dockerInterface = self.dockerInterface := by
  cases hd : self.dockerInterface with
  | none => exact absurd hd h
  | some r =>
    cases hl : self.localInterface <;> simp [autoDetectWith, hl, hd]

theorem autoDetectWith_all (enumerated : List InterfaceRecord) (self : NetworkConfig) :
    (autoDetectWith enumerated self).1.allInterfaces = enumerated := by
  cases hl : self.localInterface <;> cases hd : self.dockerInterface <;>
    simp [autoDetectWith, hl, hd]

theorem loadConfigDocker_local (config : Snapshot) (self : NetworkConfig) :
    (loadConfigDocker config self).1.localInterface = self.localInterface := by
  unfold loadConfigDocker
  split
  · split <;> rfl
  · rfl

theorem loadConfigDocker_docker (config : Snapshot) (self : NetworkConfig)
    (h : self.dockerInterface ≠ none) :
    (loadConfigDocker config self).1.dockerInterface = self.dockerInterface := by
  unfold loadConfigDocker
  split
  · rename_i hd; exact absurd hd h
  · rfl

theorem loadConfig_local (file : ConfigFile) (self : NetworkConfig)
    (h : self.localInterface ≠ none) :
    (loadConfig file self).1.localInterface = self.localInterface := by
  unfold loadConfig
  split
  · rfl
  · rfl
  · split
    · rename_i hl; exact absurd hl h
    · exact loadConfigDocker_local _ _

theorem loadConfig_docker (file : ConfigFile) (self : NetworkConfig)
    (h : self.dockerInterface ≠ none) :
    (loadConfig file self).1.dockerInterface = self.dockerInterface := by
  unfold loadConfig
  split
  · rfl
  · rfl
  · split
    · split
      · exact loadConfigDocker_docker _ _ h
      · rfl
    · exact loadConfigDocker_docker _ _ h

theorem initialize_rest_local (env : ProcessEnv) (w : World) (s1 : NetworkConfig)
    (h : s1.localInterface ≠ none) :
    (let detected :=
      if AUTO_DETECT env && (s1.localInterface.isNone || s1.dockerInterface.isNone) then
        let r := autoDetect env w.interfacesAuto w.timestamp s1
        (r.1, writeConfig w.writable w.file r.2.2)
      else (s1, w.file)
    let s2 := detected.1
    if s2.localInterface.isNone || s2.dockerInterface.isNone then
      (loadConfig detected.2 s2).1
    else s2).localInterface = s1.localInterface := by
  have hauto : (autoDetect env w.interfacesAuto w.timestamp s1).1.localInterface =
      s1.localInterface := autoDetectWith_local _ _ h
  simp only
  split
  · split
    · rw [loadConfig_local _ _ (by simpa [hauto] using h)]; exact hauto
    · exact hauto
  · split
    · exact loadConfig_local _ _ h
    · rfl

theorem initialize_rest_docker (env : ProcessEnv) (w : World) (s1 : NetworkConfig)
    (h : s1.dockerInterface ≠ none) :
    (let detected :=
      if AUTO_DETECT env && (s1.localInterface.isNone || s1.dockerInterface.isNone) then
        let r := autoDetect env w.interfacesAuto w.timestamp s1
        (r.1, writeConfig w.writable w.file r.2.2)
      else (s1, w.file)
    let s2 := detected.1
    if s2.localInterface.isNone || s2.dockerInterface.isNone then
      (loadConfig detected.2 s2).1
    else s2).dockerInterface = s1.dockerInterface := by
  have hauto : (autoDetect env w.interfacesAuto w.timestamp s1).1.dockerInterface =
      s1.dockerInterface := autoDetectWith_docker _ _ h
  simp only
  split
  · split
    · rw [loadConfig_docker _ _ (by simpa [hauto] using h)]; exact hauto
    · exact hauto
  · split
    · exact loadConfig_docker _ _ h
    · rfl

/-- C10. `autoDetect` leaves a slot that is already set exactly as it was, whatever the
new enumeration contains: a set local slot and a set docker slot hold the same record
after the call. On a state with both slots set it (and so the re-detection request)
changes only `allInterfaces`; and a manually configured name that resolves at start-up is
the record held after `initialize()`, auto-detection and snapshot loading included. -/
theorem autoDetect_keeps_set_slots (env : ProcessEnv) (interfaces : OSInterfaces)
    (timestamp : JSString) (self : NetworkConfig) :
    (self.localInterface ≠ none →
      (autoDetect env interfaces timestamp self).1.localInterface = self.localInterface) ∧
    (self.dockerInterface ≠ none →
      (autoDetect env interfaces timestamp self).1.dockerInterface = self.dockerInterface) ∧
    (self.localInterface ≠ none → self.dockerInterface ≠ none →
      (autoDetect env interfaces timestamp self).1 =
        { self with allInterfaces := detectAllInterfaces env interfaces } ∧
      (postInterfacesDetect env interfaces timestamp self).1 =
        { self with allInterfaces := detectAllInterfaces env interfaces }) ∧
    (∀ (w : World) (n : JSString) (r : InterfaceRecord), LOCAL_INTERFACE env = some n →
      (detectAllInterfaces env w.interfacesManual).find? (fun i => i.name == n) = some r →
      (initializeNetworkConfig env w NetworkConfig.new).localInterface = some r) ∧
    (∀ (w : World) (n : JSString) (r : InterfaceRecord), DOCKER_INTERFACE env = some n →
      (detectAllInterfaces env w.interfacesManual).find? (fun i => i.name == n) = some r →
      (initializeNetworkConfig env w NetworkConfig.new).dockerInterface = some r) := by
  have hboth : self.localInterface ≠ none → self.dockerInterface ≠ none →
      (autoDetect env interfaces timestamp self).1 =
        { self with allInterfaces := detectAllInterfaces env interfaces } := by
    intro hl hd
    have e1 := autoDetectWith_local (detectAllInterfaces env interfaces) self hl
    have e2 := autoDetectWith_docker (detectAllInterfaces env interfaces) self hd
    have e3 := autoDetectWith_all (detectAllInterfaces env interfaces) self
    cases hr : (autoDetectWith (detectAllInterfaces env interfaces) self).1 with
    | mk a b c =>
      rw [hr] at e1 e2 e3
      simp only at e1 e2 e3
      simp only [autoDetect, hr, e1, e2, e3]
  refine ⟨autoDetectWith_local _ _, autoDetectWith_docker _ _,
    fun hl hd => ⟨hboth hl hd, hboth hl hd⟩, ?_, ?_⟩
  · intro w n r hn hfind
    unfold initializeNetworkConfig
    rw [initialize_rest_local]
    · simp [hn, manualSlot, loadInterfaceByName, hfind, NetworkConfig.new]
    · simp [hn, manualSlot, loadInterfaceByName, hfind, NetworkConfig.new]
  · intro w n r hn hfind
    unfold initializeNetworkConfig
    rw [initialize_rest_docker]
    · simp [hn, manualSlot, loadInterfaceByName, hfind, NetworkConfig.new]
    · simp [hn, manualSlot, loadInterfaceByName, hfind, NetworkConfig.new]

/-- C10, an instance: both slots hold records (`tun0`, `br0`) that the new enumeration
does not contain, and `autoDetect` changes nothing but `allInterfaces`. -/
theorem autoDetect_keeps_set_slots_witness :
    staleRecord ∉ detectAllInterfaces emptyEnv mixedTable ∧
    bridgeRecord ∉ detectAllInterfaces emptyEnv mixedTable ∧
    (autoDetect emptyEnv mixedTable [] ⟨some staleRecord, some bridgeRecord, []⟩).1 =
      ⟨some staleRecord, some bridgeRecord, detectAllInterfaces emptyEnv mixedTable⟩ :=
  ⟨by decide, by decide,
    ((autoDetect_keeps_set_slots emptyEnv mixedTable []
      ⟨some staleRecord, some bridgeRecord, []⟩).2.2.1 (by decide) (by decide)).1⟩

/-- C9, the failing input evaluated. The saved names are `tun0` (local, no longer present)
and `br0` (docker, present). `br0` resolves, yet `loadConfig` leaves the docker slot unset
because the failed lookup of `tun0` leaves the `try` block; so does `initialize()` at a
start-up that reaches `loadConfig`. The manual path, which guards each lookup on its own,
sets the docker slot in the same situation. -/
theorem loadConfig_unresolved_local_skips_docker :
    (loadInterfaceByName ⟨none, none, [bridgeRecord]⟩ (js "br0")).toOption =
      some bridgeRecord ∧
    (loadInterfaceByName ⟨none, none, [bridgeRecord]⟩ (js "tun0")).toOption = none ∧
    loadConfig (.parsed savedSnapshot) ⟨none, none, [bridgeRecord]⟩ =
      (⟨none, none, [bridgeRecord]⟩, false) ∧
    initializeNetworkConfig savedEnv savedWorld NetworkConfig.new =
      ⟨none, none, [bridgeRecord]⟩ ∧
    initializeNetworkConfig manualEnv savedWorld NetworkConfig.new =
      ⟨none, some bridgeRecord, [bridgeRecord]⟩ := by
  decide

/-- C2, the failing input evaluated. `GG:GG:GG:GG:GG:GG` leaves twelve characters that are
not hexadecimal; `createMagicPacket` does not throw but returns six `0xFF` bytes followed
by 96 zero bytes. A string of a wrong length, `AA:BB:CC`, does throw. -/
theorem createMagicPacket_non_hex_accepted :
    (toLowerCase (removeSeparators (js "GG:GG:GG:GG:GG:GG"))).length = 12 ∧
    (toLowerCase (removeSeparators (js "GG:GG:GG:GG:GG:GG"))).all isHexDigit = false ∧
    createMagicPacket (js "GG:GG:GG:GG:GG:GG") =
      .ok (List.replicate 6 255 ++ List.replicate 96 0) ∧
    createMagicPacket (js "AA:BB:CC") = .error invalidMacMessage :=
  ⟨by decide, by decide, by rfl, by rfl⟩

/-- C1, an instance: the three spellings of `aa:bb:cc:dd:ee:ff` give one and the same
102-byte packet, whose repeated six bytes are `AA BB CC DD EE FF`. -/
theorem createMagicPacket_layout_witness :
    (toLowerCase (removeSeparators (js "AA:BB:CC:DD:EE:FF"))).length = 12 ∧
    (toLowerCase (removeSeparators (js "AA:BB:CC:DD:EE:FF"))).all isHexDigit = true ∧
    macBytes (toLowerCase (removeSeparators (js "AA:BB:CC:DD:EE:FF"))) =
      [0xAA, 0xBB, 0xCC, 0xDD, 0xEE, 0xFF] ∧
    ∃ packet, packet.length = 102 ∧
      createMagicPacket (js "AA:BB:CC:DD:EE:FF") = .ok packet ∧
      createMagicPacket (js "aa-bb-cc-dd-ee-ff") = .ok packet ∧
      createMagicPacket (js "AABBCCDDEEFF") = .ok packet :=
  ⟨by decide, by decide, by decide,
    match createMagicPacket_layout (js "AA:BB:CC:DD:EE:FF") (by decide) (by decide) with
    | ⟨packet, h1, h2, _, _, h5⟩ =>
      ⟨packet, h2, h1, h5 (js "aa-bb-cc-dd-ee-ff") (by decide),
        h5 (js "AABBCCDDEEFF") (by decide)⟩⟩

/-- A normalised form of a length other than twelve is rejected. The statement is kept to
ASCII input, on which the modelled `toLowerCase` is the one of the program. -/
theorem createMagicPacket_wrong_length (macAddress : JSString)
    (_hascii : ∀ c ∈ macAddress, c < 128)
    (h : (toLowerCase (removeSeparators macAddress)).length ≠ 12) :
    createMagicPacket macAddress = .error invalidMacMessage := by
  unfold createMagicPacket
  simp only [h, ne_eq, not_false_eq_true, if_true]

theorem bufferCopy_length (source target : List Nat) (targetStart : Nat) :
    (bufferCopy source target targetStart).length = target.length := by
  simp only [bufferCopy, List.length_append, List.length_take, List.length_drop]
  omega

theorem foldl_bufferCopy_length (source : List Nat) (l : List Nat) (target : List Nat) :
    (l.foldl (fun pkt i => bufferCopy source pkt (6 + i * 6)) target).length =
      target.length := by
  induction l generalizing target with
  | nil => rfl
  | cons i l ih => rw [List.foldl_cons, ih, bufferCopy_length]

/-- The only check of `createMagicPacket` is the length: every ASCII input whose normalised
form has twelve code units, hexadecimal or not, gets a 102-byte packet and no error. -/
theorem createMagicPacket_of_length (macAddress : JSString)
    (_hascii : ∀ c ∈ macAddress, c < 128)
    (h : (toLowerCase (removeSeparators macAddress)).length = 12) :
    ∃ packet, createMagicPacket macAddress = .ok packet ∧ packet.length = 102 := by
  refine ⟨(List.range 16).foldl
      (fun pkt i => bufferCopy (bufferFromHex (toLowerCase (removeSeparators macAddress))) pkt
        (6 + i * 6))
      ((List.range 6).foldl (fun pkt i => pkt.set i 0xFF) (bufferAlloc 102)), ?_, ?_⟩
  · unfold createMagicPacket
    simp only [h, ne_eq, not_true_eq_false, if_false]
  · rw [foldl_bufferCopy_length]
    rfl

end PelicanWOL
